import Mathlib

unseal Rat.mul Rat.add Rat.sub Rat.inv

/-!
Verification of the ASTC color endpoint quantizer
(`Source/astcenc_color_quantize.cpp`).

The C code is shallowly embedded: 32-bit `float` arithmetic is modelled by
exact rational arithmetic (`ℚ`), C `int` by `Int`, and the per-level
quantization tables (an external read-only dependency of the module) by an
abstract pair of functions.  A table lookup whose index falls outside
`[0,255]` is undefined behaviour in the C code and is modelled as `none`;
unbounded C loops are modelled with an explicit fuel parameter large enough
that `none` can only arise from genuine divergence or undefined behaviour.
Output buffers are modelled as `List Int` updated with `List.set`.
-/

namespace Astc

/-! ### 32-bit two's-complement integer bit operations

The C code works on 32-bit `int`.  `Nat.bitwise` (behind `&&&` on `Nat`) is
defined by well-founded recursion and does not reduce in the kernel, so we
define the bit operations by structural recursion on a 32-bit width. -/

/-- Combine the low `w` bits of `a` and `b` with the boolean function `f`
(structural recursion on the width, so it evaluates by `decide`). -/
def bitf (f : Bool → Bool → Bool) : Nat → Nat → Nat → Nat
  | 0, _, _ => 0
  | w+1, a, b =>
    (if f (a % 2 = 1) (b % 2 = 1) then 1 else 0) + 2 * bitf f w (a / 2) (b / 2)

/-- `2^32`. -/
def u32 : Nat := 4294967296

/-- The 32-bit two's-complement representation of an `int`. -/
def toU32 (a : Int) : Nat := (a % (u32 : Int)).toNat

/-- Read a 32-bit two's-complement word back as a signed `int`. -/
def ofU32 (n : Nat) : Int :=
  if n < 2147483648 then (n : Int) else (n : Int) - (u32 : Int)

/-- C `a & b` on 32-bit `int`. -/
def iand (a b : Int) : Int := ofU32 (bitf and 32 (toU32 a) (toU32 b))

/-- C `a | b` on 32-bit `int`. -/
def ior (a b : Int) : Int := ofU32 (bitf or 32 (toU32 a) (toU32 b))

/-- C `a ^ b` on 32-bit `int`. -/
def ixor (a b : Int) : Int := ofU32 (bitf xor 32 (toU32 a) (toU32 b))

/-- C `a << k` (the shifted values in this module never overflow 32 bits). -/
def ishl (a : Int) (k : Nat) : Int := a * 2 ^ k

/-- C `a >> k` (arithmetic shift = floor division). -/
def ishr (a : Int) (k : Nat) : Int := Int.fdiv a (2 ^ k)

/-- C `~a`. -/
def inot (a : Int) : Int := -a - 1

/-- Modelled from the spec: the per-level quantization tables
`color_quantization_tables` and `color_unquantization_tables`, two
256-entry arrays per quantization level, are declared in
`astcenc_internal.h` and generated elsewhere; the spec treats them as an
external read-only dependency.  `quant L v` models
`color_quantization_tables[L][v]` and `unquant L q` models
`color_unquantization_tables[L][q]`. -/
structure QuantTables where
  quant : Nat → Nat → Nat
  unquant : Nat → Nat → Nat

/-- Identity tables: the instantiation used by the spec's test section
("assume `N(18) = 256`, identity tables").  Entries are reduced mod 256 so
that both maps are total on `Nat`. -/
def idTables : QuantTables :=
  ⟨fun _ v => v % 256, fun _ q => q % 256⟩

/-- Modelled from the spec: `clamp255f(x) = min(max(x, 0), 255)`
(`astc::clamp255f` lives in `astcenc_internal.h`, outside `src/`). -/
def clamp255f (x : ℚ) : ℚ := min (max x 0) 255

/-- Modelled from the spec: `clamp1f(x) = min(max(x, 0), 1)`. -/
def clamp1f (x : ℚ) : ℚ := min (max x 0) 1

/-- Modelled from the spec: `astc::clamp(x, lo, hi)`, the two-sided clamp
used by the HDR attempts. -/
def clampQ (x lo hi : ℚ) : ℚ := min (max x lo) hi

/-- Floor of a rational as an integer (used to model float-to-int
conversions). -/
def rfloor (q : ℚ) : Int := Int.fdiv q.num q.den

/-- Modelled from the spec: `rd(x) = ⌊x⌋` (`astc::flt2int_rd`). -/
def flt2int_rd (x : ℚ) : Int := rfloor x

/-- Modelled from the spec: `rtn(x) = ⌊x + 0.5⌋` (`astc::flt2int_rtn`),
round to nearest with ties toward `+∞`. -/
def flt2int_rtn (x : ℚ) : Int := rfloor (x + 1/2)

/-- A 4-component color, `float4` with exact rational components. -/
structure Color where
  r : ℚ
  g : ℚ
  b : ℚ
  a : ℚ
deriving DecidableEq

/-- `color_quantization_tables[L][v]` for an arbitrary signed index:
`none` models the undefined behaviour of an out-of-bounds read. -/
def qLookup (t : QuantTables) (L : Nat) (v : Int) : Option Nat :=
  if 0 ≤ v ∧ v ≤ 255 then some (t.quant L v.toNat) else none

/-- `cqt_lookup`: quantization-table lookup with the index clamped into
`[0,255]` first (always defined). -/
def cqt_lookup (t : QuantTables) (L : Nat) (v : Int) : Nat :=
  t.quant L (min (max v 0) 255).toNat

/-- `color_unquantization_tables[L][q]` as an `Int` (the C code consumes
unquantized bytes in `int` arithmetic). -/
def unqI (t : QuantTables) (L : Nat) (q : Nat) : Int :=
  t.unquant L q

/-- The body of `quantize_and_unquantize_retain_top_two_bits` /
`..._retain_top_four_bits`, parameterized by the retained-bit mask.
Each iteration looks the working value up, and if the quant/unquant
round trip changed any bit of `mask` (in either direction) decrements the
working value by one and retries; `none` models running off the table
(the C code has no lower-bound clamp) or exhausting the fuel. -/
def retain_loop (t : QuantTables) (L mask : Nat) : Nat → Int → Option (Nat × Nat)
  | 0, _ => none
  | fuel+1, v =>
    match qLookup t L v with
    | none => none
    | some quantval =>
      let uquantval := t.unquant L quantval
      if v.toNat &&& mask = uquantval &&& mask then
        some (quantval, uquantval)
      else
        retain_loop t L mask fuel (v - 1)

/-- `quantize_and_unquantize_retain_top_two_bits` (fuel 300 covers every
starting byte: the loop decrements by at most one per iteration). -/
def quantize_and_unquantize_retain_top_two_bits
    (t : QuantTables) (L : Nat) (v : Int) : Option (Nat × Nat) :=
  retain_loop t L 0xC0 300 v

/-- `quantize_and_unquantize_retain_top_four_bits`. -/
def quantize_and_unquantize_retain_top_four_bits
    (t : QuantTables) (L : Nat) (v : Int) : Option (Nat × Nat) :=
  retain_loop t L 0xF0 300 v

/-! ### LDR attempts -/

/-- `1.0f / 257.0f`, the LDR input scale. -/
def scale257 : ℚ := mkRat 1 257

/-- The body of the `do { ... } while` retry loop of `quantize_rgb`.
Iteration `k` quantizes with round-down biases
`rgb0_addon = 0.5 - 0.2 k` and `rgb1_addon = 0.5 + 0.2 k` and exits as
soon as the unquantized endpoint-0 sum no longer exceeds the endpoint-1
sum; `none` models exhausting the fuel (the C loop is unbounded). -/
def quantize_rgb_loop (t : QuantTables) (L : Nat) (r0 g0 b0 r1 g1 b1 : ℚ) :
    Nat → ℚ → ℚ → List Int → Option (List Int)
  | 0, _, _, _ => none
  | fuel+1, rgb0_addon, rgb1_addon, buf =>
    let ri0 := cqt_lookup t L (flt2int_rd (r0 + rgb0_addon))
    let gi0 := cqt_lookup t L (flt2int_rd (g0 + rgb0_addon))
    let bi0 := cqt_lookup t L (flt2int_rd (b0 + rgb0_addon))
    let ri1 := cqt_lookup t L (flt2int_rd (r1 + rgb1_addon))
    let gi1 := cqt_lookup t L (flt2int_rd (g1 + rgb1_addon))
    let bi1 := cqt_lookup t L (flt2int_rd (b1 + rgb1_addon))
    let ri0b := t.unquant L ri0
    let gi0b := t.unquant L gi0
    let bi0b := t.unquant L bi0
    let ri1b := t.unquant L ri1
    let gi1b := t.unquant L gi1
    let bi1b := t.unquant L bi1
    if ri0b + gi0b + bi0b > ri1b + gi1b + bi1b then
      quantize_rgb_loop t L r0 g0 b0 r1 g1 b1 fuel
        (rgb0_addon - mkRat 1 5) (rgb1_addon + mkRat 1 5) buf
    else
      some ((((((buf.set 0 ri0).set 1 ri1).set 2 gi0).set 3 gi1).set 4 bi0).set 5 bi1)

/-- `quantize_rgb`: the infallible LDR RGB encoder (fuel 1300 is enough
for the retry loop to drive the low endpoint to 0 and the high endpoint to
255). -/
def quantize_rgb (t : QuantTables) (L : Nat) (color0 color1 : Color)
    (buf : List Int) : Option (List Int) :=
  quantize_rgb_loop t L
    (clamp255f (color0.r * scale257)) (clamp255f (color0.g * scale257))
    (clamp255f (color0.b * scale257))
    (clamp255f (color1.r * scale257)) (clamp255f (color1.g * scale257))
    (clamp255f (color1.b * scale257))
    1300 (mkRat 1 2) (mkRat 1 2) buf

/-- `quantize_rgba`: stores the two alpha indices at slots 6 and 7, then
runs `quantize_rgb` for the RGB part. -/
def quantize_rgba (t : QuantTables) (L : Nat) (color0 color1 : Color)
    (buf : List Int) : Option (List Int) := do
  let a0 := clamp255f (color0.a * scale257)
  let a1 := clamp255f (color1.a * scale257)
  let ai0 ← qLookup t L (flt2int_rtn a0)
  let ai1 ← qLookup t L (flt2int_rtn a1)
  quantize_rgb t L color0 color1 ((buf.set 6 (ai0 : Int)).set 7 (ai1 : Int))

/-- `try_quantize_rgb_blue_contract`: quantize after inverse
blue-contraction, fail on range overflow or when the decoded order is not
strictly increasing, emit with the endpoints swapped.  (The C function
returns 1 on success; we return the flag and the buffer.) -/
def try_quantize_rgb_blue_contract (t : QuantTables) (L : Nat)
    (color0 color1 : Color) (buf : List Int) : Option (Bool × List Int) :=
  let r0x := color0.r * scale257
  let g0x := color0.g * scale257
  let b0 := color0.b * scale257
  let r1x := color1.r * scale257
  let g1x := color1.g * scale257
  let b1 := color1.b * scale257
  let r0 := r0x + (r0x - b0)
  let g0 := g0x + (g0x - b0)
  let r1 := r1x + (r1x - b1)
  let g1 := g1x + (g1x - b1)
  if r0 < 0 ∨ r0 > 255 ∨ g0 < 0 ∨ g0 > 255 ∨ b0 < 0 ∨ b0 > 255 ∨
     r1 < 0 ∨ r1 > 255 ∨ g1 < 0 ∨ g1 > 255 ∨ b1 < 0 ∨ b1 > 255 then
    some (false, buf)
  else do
    let ri0 ← qLookup t L (flt2int_rtn r0)
    let gi0 ← qLookup t L (flt2int_rtn g0)
    let bi0 ← qLookup t L (flt2int_rtn b0)
    let ri1 ← qLookup t L (flt2int_rtn r1)
    let gi1 ← qLookup t L (flt2int_rtn g1)
    let bi1 ← qLookup t L (flt2int_rtn b1)
    let ru0 := t.unquant L ri0
    let gu0 := t.unquant L gi0
    let bu0 := t.unquant L bi0
    let ru1 := t.unquant L ri1
    let gu1 := t.unquant L gi1
    let bu1 := t.unquant L bi1
    if ru1 + gu1 + bu1 ≤ ru0 + gu0 + bu0 then
      pure (false, buf)
    else
      pure (true,
        (((((buf.set 0 (ri1 : Int)).set 1 (ri0 : Int)).set 2 (gi1 : Int)).set 3
          (gi0 : Int)).set 4 (bi1 : Int)).set 5 (bi0 : Int))

/-- `try_quantize_rgba_blue_contract`: writes the alpha indices (swapped)
at slots 7 and 6 unconditionally, then attempts the RGB part. -/
def try_quantize_rgba_blue_contract (t : QuantTables) (L : Nat)
    (color0 color1 : Color) (buf : List Int) : Option (Bool × List Int) := do
  let a0 := clamp255f (color0.a * scale257)
  let a1 := clamp255f (color1.a * scale257)
  let ai0 ← qLookup t L (flt2int_rtn a0)
  let ai1 ← qLookup t L (flt2int_rtn a1)
  try_quantize_rgb_blue_contract t L color0 color1
    ((buf.set 7 (ai0 : Int)).set 6 (ai1 : Int))

/-- Decoder-side sign extension of a delta field: keep the low seven bits
and subtract `0x80` when bit 6 (the sign bit) is set. -/
def sext7 (du : Int) : Int :=
  let l := iand du 0x7F
  if iand l 0x40 ≠ 0 then l - 0x80 else l

/-- The per-channel result of an LDR delta attempt. -/
structure DeltaChan where
  e0 : Nat
  e1 : Nat
  base : Int
  off : Int
deriving DecidableEq

/-- The packed 8-bit offset field of the LDR delta encoding: the low seven
bits of the raw offset `d`, with bit 8 of the 9-bit base ORed in
(`r1d |= (r0b & 0x100) >> 1` in the C code). -/
def delta_pack_field (d base : Int) : Int :=
  ior (iand d 0x7F) (ishr (iand base 0x100) 1)

/-- One channel of the LDR delta pipeline (shared verbatim by
`try_quantize_rgb_delta`, `try_quantize_rgb_delta_blue_contract`,
`try_quantize_alpha_delta` and `try_quantize_luminance_alpha_delta`):
form the unorm9 base, round-trip its low byte, take the difference,
range-check it, pack the offset field, round-trip it and verify the top
two bits survive.  `some none` is a failed attempt. -/
def delta_chan (t : QuantTables) (L : Nat) (x0 x1 : Int) :
    Option (Option DeltaChan) := do
  let a0a := ishl x0 1
  let a0b := iand a0a 0xFF
  let e0 ← qLookup t L a0b
  let base := ior (unqI t L e0) (iand a0a 0x100)
  let d := ishl x1 1 - base
  if d > 63 ∨ d < -64 then
    pure none
  else
    let field := delta_pack_field d base
    let e1 ← qLookup t L field
    let du := unqI t L e1
    if iand (ixor field du) 0xC0 ≠ 0 then
      pure none
    else
      pure (some ⟨e0, e1, base, sext7 du⟩)

/-- `try_quantize_rgb_delta`. -/
def try_quantize_rgb_delta (t : QuantTables) (L : Nat)
    (color0 color1 : Color) (buf : List Int) : Option (Bool × List Int) := do
  let r0 := clamp255f (color0.r * scale257)
  let g0 := clamp255f (color0.g * scale257)
  let b0 := clamp255f (color0.b * scale257)
  let r1 := clamp255f (color1.r * scale257)
  let g1 := clamp255f (color1.g * scale257)
  let b1 := clamp255f (color1.b * scale257)
  let cr ← delta_chan t L (flt2int_rtn r0) (flt2int_rtn r1)
  let cg ← delta_chan t L (flt2int_rtn g0) (flt2int_rtn g1)
  let cb ← delta_chan t L (flt2int_rtn b0) (flt2int_rtn b1)
  match cr, cg, cb with
  | some cr, some cg, some cb =>
    -- the sum of the encoded offsets must be nonnegative
    if cr.off + cg.off + cb.off < 0 then
      pure (false, buf)
    else
      let rs := cr.off + cr.base
      let gs := cg.off + cg.base
      let bs := cb.off + cb.base
      if rs < 0 ∨ rs > 0x1FF ∨ gs < 0 ∨ gs > 0x1FF ∨ bs < 0 ∨ bs > 0x1FF then
        pure (false, buf)
      else
        pure (true,
          (((((buf.set 0 (cr.e0 : Int)).set 1 (cr.e1 : Int)).set 2
            (cg.e0 : Int)).set 3 (cg.e1 : Int)).set 4 (cb.e0 : Int)).set 5
            (cb.e1 : Int))
  | _, _, _ => pure (false, buf)

/-- `try_quantize_rgb_delta_blue_contract`: swaps the endpoints at entry,
applies inverse blue-contraction, then runs the delta pipeline with the
sum rule inverted (`≥ 0` fails). -/
def try_quantize_rgb_delta_blue_contract (t : QuantTables) (L : Nat)
    (color0 color1 : Color) (buf : List Int) : Option (Bool × List Int) :=
  let r0x := color1.r * scale257
  let g0x := color1.g * scale257
  let b0 := color1.b * scale257
  let r1x := color0.r * scale257
  let g1x := color0.g * scale257
  let b1 := color0.b * scale257
  let r0 := r0x + (r0x - b0)
  let g0 := g0x + (g0x - b0)
  let r1 := r1x + (r1x - b1)
  let g1 := g1x + (g1x - b1)
  if r0 < 0 ∨ r0 > 255 ∨ g0 < 0 ∨ g0 > 255 ∨ b0 < 0 ∨ b0 > 255 ∨
     r1 < 0 ∨ r1 > 255 ∨ g1 < 0 ∨ g1 > 255 ∨ b1 < 0 ∨ b1 > 255 then
    some (false, buf)
  else do
    let cr ← delta_chan t L (flt2int_rtn r0) (flt2int_rtn r1)
    let cg ← delta_chan t L (flt2int_rtn g0) (flt2int_rtn g1)
    let cb ← delta_chan t L (flt2int_rtn b0) (flt2int_rtn b1)
    match cr, cg, cb with
    | some cr, some cg, some cb =>
      -- the sum of the encoded offsets must be negative
      if cr.off + cg.off + cb.off ≥ 0 then
        pure (false, buf)
      else
        let rs := cr.off + cr.base
        let gs := cg.off + cg.base
        let bs := cb.off + cb.base
        if rs < 0 ∨ rs > 0x1FF ∨ gs < 0 ∨ gs > 0x1FF ∨ bs < 0 ∨ bs > 0x1FF then
          pure (false, buf)
        else
          pure (true,
            (((((buf.set 0 (cr.e0 : Int)).set 1 (cr.e1 : Int)).set 2
              (cg.e0 : Int)).set 3 (cg.e1 : Int)).set 4 (cb.e0 : Int)).set 5
              (cb.e1 : Int))
    | _, _, _ => pure (false, buf)

/-- `try_quantize_alpha_delta`: the same per-channel pipeline on alpha
only, writing slots 6 and 7. -/
def try_quantize_alpha_delta (t : QuantTables) (L : Nat)
    (color0 color1 : Color) (buf : List Int) : Option (Bool × List Int) := do
  let a0 := clamp255f (color0.a * scale257)
  let a1 := clamp255f (color1.a * scale257)
  let ca ← delta_chan t L (flt2int_rtn a0) (flt2int_rtn a1)
  match ca with
  | some ca =>
    let su := ca.off + ca.base
    if su < 0 ∨ su > 0x1FF then
      pure (false, buf)
    else
      pure (true, (buf.set 6 (ca.e0 : Int)).set 7 (ca.e1 : Int))
  | none => pure (false, buf)

/-- `try_quantize_luminance_alpha_delta`: the delta pipeline on the
luminance and alpha channels, writing slots 0 to 3. -/
def try_quantize_luminance_alpha_delta (t : QuantTables) (L : Nat)
    (color0 color1 : Color) (buf : List Int) : Option (Bool × List Int) := do
  let l0 := clamp255f ((color0.r + color0.g + color0.b) * mkRat 1 771)
  let l1 := clamp255f ((color1.r + color1.g + color1.b) * mkRat 1 771)
  let a0 := clamp255f (color0.a * scale257)
  let a1 := clamp255f (color1.a * scale257)
  let cl ← delta_chan t L (flt2int_rtn l0) (flt2int_rtn l1)
  let ca ← delta_chan t L (flt2int_rtn a0) (flt2int_rtn a1)
  match cl, ca with
  | some cl, some ca =>
    let ls := cl.off + cl.base
    let asum := ca.off + ca.base
    if ls < 0 ∨ ls > 0x1FF then
      pure (false, buf)
    else if asum < 0 ∨ asum > 0x1FF then
      pure (false, buf)
    else
      pure (true,
        (((buf.set 0 (cl.e0 : Int)).set 1 (cl.e1 : Int)).set 2
          (ca.e0 : Int)).set 3 (ca.e1 : Int))
  | _, _ => pure (false, buf)

/-- `try_quantize_rgba_delta`: alpha delta first, then RGB delta; the C
code returns early if the alpha attempt fails, and otherwise reports the
RGB result (note the alpha slots stay written even when the RGB part
fails). -/
def try_quantize_rgba_delta (t : QuantTables) (L : Nat)
    (color0 color1 : Color) (buf : List Int) : Option (Bool × List Int) := do
  let (aok, buf1) ← try_quantize_alpha_delta t L color0 color1 buf
  if aok = false then
    pure (false, buf1)
  else
    try_quantize_rgb_delta t L color0 color1 buf1

/-- `try_quantize_rgba_delta_blue_contract`: the alpha call swaps the two
colors (blue-contraction swaps the endpoints). -/
def try_quantize_rgba_delta_blue_contract (t : QuantTables) (L : Nat)
    (color0 color1 : Color) (buf : List Int) : Option (Bool × List Int) := do
  let (aok, buf1) ← try_quantize_alpha_delta t L color1 color0 buf
  if aok = false then
    pure (false, buf1)
  else
    try_quantize_rgb_delta_blue_contract t L color0 color1 buf1

/-- `quantize_rgbs_new`: RGB-scale encoding. -/
def quantize_rgbs_new (t : QuantTables) (L : Nat) (rgbs_color : Color)
    (buf : List Int) : Option (List Int) := do
  let rr := rgbs_color.r * scale257
  let gg := rgbs_color.g * scale257
  let bb := rgbs_color.b * scale257
  let r := clamp255f rr
  let g := clamp255f gg
  let b := clamp255f bb
  let ri ← qLookup t L (flt2int_rtn r)
  let gi ← qLookup t L (flt2int_rtn g)
  let bi ← qLookup t L (flt2int_rtn b)
  let ru := t.unquant L ri
  let gu := t.unquant L gi
  let bu := t.unquant L bi
  let oldcolorsum := rr + gg + bb
  let newcolorsum : ℚ := ((ru + gu + bu : Nat) : ℚ)
  let eps : ℚ := mkRat 1 10000000000
  let scale := clamp1f (rgbs_color.a * (oldcolorsum + eps) / (newcolorsum + eps))
  let scale_idx := flt2int_rtn (scale * 256)
  let scale_idx := min (max scale_idx 0) 255
  let si ← qLookup t L scale_idx
  pure ((((buf.set 0 (ri : Int)).set 1 (gi : Int)).set 2 (bi : Int)).set 3
    (si : Int))

/-- `quantize_rgbs_alpha_new`: stores the alpha pair at slots 4 and 5 and
then the RGB-scale quadruple at slots 0 to 3. -/
def quantize_rgbs_alpha_new (t : QuantTables) (L : Nat)
    (color0 color1 rgbs_color : Color) (buf : List Int) :
    Option (List Int) := do
  let a0 := clamp255f (color0.a * scale257)
  let a1 := clamp255f (color1.a * scale257)
  let ai0 ← qLookup t L (flt2int_rtn a0)
  let ai1 ← qLookup t L (flt2int_rtn a1)
  quantize_rgbs_new t L rgbs_color ((buf.set 4 (ai0 : Int)).set 5 (ai1 : Int))

/-- `quantize_luminance`. -/
def quantize_luminance (t : QuantTables) (L : Nat) (color0 color1 : Color)
    (buf : List Int) : Option (List Int) := do
  let lum0 := clamp255f ((color0.r * scale257 + color0.g * scale257 +
    color0.b * scale257) * mkRat 1 3)
  let lum1 := clamp255f ((color1.r * scale257 + color1.g * scale257 +
    color1.b * scale257) * mkRat 1 3)
  let p := if lum0 > lum1 then
      let avg := (lum0 + lum1) * mkRat 1 2
      (avg, avg)
    else (lum0, lum1)
  let o0 ← qLookup t L (flt2int_rtn p.1)
  let o1 ← qLookup t L (flt2int_rtn p.2)
  pure ((buf.set 0 (o0 : Int)).set 1 (o1 : Int))

/-- The `quantization_level > 18` "pull really close endpoints apart"
adjustment of `quantize_luminance_alpha`. -/
def lum_alpha_spread (L : Nat) (x0 x1 : ℚ) : ℚ × ℚ :=
  if L > 18 ∧ |x0 - x1| < 3 then
    if x0 < x1 then
      (clamp255f (x0 - mkRat 1 2), clamp255f (x1 + mkRat 1 2))
    else
      (clamp255f (x0 + mkRat 1 2), clamp255f (x1 - mkRat 1 2))
  else (x0, x1)

/-- `quantize_luminance_alpha`. -/
def quantize_luminance_alpha (t : QuantTables) (L : Nat)
    (color0 color1 : Color) (buf : List Int) : Option (List Int) := do
  let lum0 := clamp255f ((color0.r * scale257 + color0.g * scale257 +
    color0.b * scale257) * mkRat 1 3)
  let lum1 := clamp255f ((color1.r * scale257 + color1.g * scale257 +
    color1.b * scale257) * mkRat 1 3)
  let a0 := clamp255f (color0.a * scale257)
  let a1 := clamp255f (color1.a * scale257)
  let pl := lum_alpha_spread L lum0 lum1
  let pa := lum_alpha_spread L a0 a1
  let o0 ← qLookup t L (flt2int_rtn pl.1)
  let o1 ← qLookup t L (flt2int_rtn pl.2)
  let o2 ← qLookup t L (flt2int_rtn pa.1)
  let o3 ← qLookup t L (flt2int_rtn pa.2)
  pure ((((buf.set 0 (o0 : Int)).set 1 (o1 : Int)).set 2 (o2 : Int)).set 3
    (o3 : Int))

/-! ### HDR attempts -/

/-- `mode_bits` of `quantize_hdr_rgbo3`: `(r_bits, gb_bits, s_bits)`. -/
def rgbo_mode_bits : Nat → Nat × Nat × Nat
  | 0 => (11, 5, 7)
  | 1 => (11, 6, 5)
  | 2 => (10, 5, 8)
  | 3 => (9, 6, 7)
  | _ => (8, 7, 6)

/-- `mode_cutoffs` of `quantize_hdr_rgbo3`. -/
def rgbo_mode_cutoffs : Nat → ℚ × ℚ
  | 0 => (1024, 4096)
  | 1 => (2048, 1024)
  | 2 => (2048, 16384)
  | 3 => (8192, 16384)
  | _ => (32768, 16384)

/-- `mode_rscales` of `quantize_hdr_rgbo3`. -/
def rgbo_mode_rscales : Nat → ℚ
  | 0 => 32
  | 1 => 32
  | 2 => 64
  | 3 => 128
  | _ => 256

/-- `mode_scales` of `quantize_hdr_rgbo3`. -/
def rgbo_mode_scales : Nat → ℚ
  | 0 => mkRat 1 32
  | 1 => mkRat 1 32
  | 2 => mkRat 1 64
  | 3 => mkRat 1 64
  | _ => mkRat 1 256

/-- The 4-bit mode descriptor of `quantize_hdr_rgbo3`:
`mode_enc = mode | (majcomp << 2)` for modes 0..3, `majcomp | 0xC` for
mode 4. -/
def rgbo_mode_enc (mode majcomp : Nat) : Int :=
  if mode < 4 then ior (mode : Int) (ishl (majcomp : Int) 2)
  else ior (majcomp : Int) 0xC

/-- The `switch (mode)` scatter ladder for `bit0` of the packed G byte. -/
def rgbo_bit0 (mode : Nat) (r_intval g_intval : Int) : Int :=
  if mode = 0 ∨ mode = 2 then iand (ishr r_intval 9) 1
  else if mode = 1 ∨ mode = 3 then iand (ishr r_intval 8) 1
  else iand (ishr g_intval 6) 1

/-- The scatter ladder for `bit1` of the packed G byte. -/
def rgbo_bit1 (mode : Nat) (r_intval g_intval : Int) : Int :=
  if mode = 0 ∨ mode = 2 then iand (ishr r_intval 8) 1
  else iand (ishr g_intval 5) 1

/-- The scatter ladder for `bit2` of the packed B byte. -/
def rgbo_bit2 (mode : Nat) (r_intval b_intval : Int) : Int :=
  if mode ≤ 3 then iand (ishr r_intval 7) 1
  else iand (ishr b_intval 6) 1

/-- The scatter ladder for `bit3` of the packed B byte. -/
def rgbo_bit3 (mode : Nat) (r_intval b_intval : Int) : Int :=
  if mode = 0 then iand (ishr r_intval 10) 1
  else if mode = 2 then iand (ishr r_intval 6) 1
  else iand (ishr b_intval 5) 1

/-- The scatter ladder for `bit6` of the packed S byte. -/
def rgbo_bit6 (mode : Nat) (r_intval s_intval : Int) : Int :=
  if mode = 1 then iand (ishr r_intval 9) 1
  else iand (ishr s_intval 5) 1

/-- The scatter ladder for `bit5` of the packed S byte. -/
def rgbo_bit5 (mode : Nat) (r_intval s_intval : Int) : Int :=
  if mode = 4 then iand (ishr r_intval 7) 1
  else if mode = 1 then iand (ishr r_intval 10) 1
  else iand (ishr s_intval 6) 1

/-- The scatter ladder for `bit4` of the packed S byte. -/
def rgbo_bit4 (mode : Nat) (r_intval s_intval : Int) : Int :=
  if mode = 2 then iand (ishr s_intval 7) 1
  else iand (ishr r_intval 6) 1

/-- Major-component selection shared by the HDR encoders: the index of the
strictly largest of `r`, `g`, `b` (ties resolve to the later component). -/
def hdr_majcomp (r g b : ℚ) : Nat :=
  if r > g ∧ r > b then 0 else if g > b then 1 else 2

/-- Swap the major component into the red slot. -/
def hdr_swizzle (majcomp : Nat) (c : Color) : Color :=
  if majcomp = 1 then ⟨c.g, c.r, c.b, c.a⟩
  else if majcomp = 2 then ⟨c.b, c.g, c.r, c.a⟩
  else c

/-- One iteration of the mode loop of `quantize_hdr_rgbo3` (`color` is the
swizzled input).  `some none` means the mode is skipped (`continue`). -/
def quantize_hdr_rgbo3_mode (t : QuantTables) (L mode majcomp : Nat)
    (color : Color) : Option (Option (Nat × Nat × Nat × Nat)) :=
  let r_base := color.r
  let g_base := color.r - color.g
  let b_base := color.r - color.b
  let s_base := color.a
  let cut := rgbo_mode_cutoffs mode
  if g_base > cut.1 ∨ b_base > cut.1 ∨ s_base > cut.2 then
    some none
  else
    let mode_enc : Int := rgbo_mode_enc mode majcomp
    let mode_scale := rgbo_mode_scales mode
    let mode_rscale := rgbo_mode_rscales mode
    let gb_intcutoff : Int := 2 ^ (rgbo_mode_bits mode).2.1
    let s_intcutoff : Int := 2 ^ (rgbo_mode_bits mode).2.2
    let r_intval0 := flt2int_rtn (r_base * mode_scale)
    let r_lowbits := ior (iand r_intval0 0x3f) (ishl (iand mode_enc 3) 6)
    do
    let rqu ← quantize_and_unquantize_retain_top_two_bits t L r_lowbits
    let r_quantval := rqu.1
    let r_intval := ior (iand r_intval0 (inot 0x3f)) (iand (rqu.2 : Int) 0x3f)
    let r_fval : ℚ := (r_intval : ℚ) * mode_rscale
    let g_fval := clampQ (r_fval - color.g) 0 65535
    let b_fval := clampQ (r_fval - color.b) 0 65535
    let g_intval := flt2int_rtn (g_fval * mode_scale)
    let b_intval := flt2int_rtn (b_fval * mode_scale)
    if g_intval ≥ gb_intcutoff ∨ b_intval ≥ gb_intcutoff then
      pure none
    else
      let bit0 := rgbo_bit0 mode r_intval g_intval
      let bit2 := rgbo_bit2 mode r_intval b_intval
      let bit1 := rgbo_bit1 mode r_intval g_intval
      let bit3 := rgbo_bit3 mode r_intval b_intval
      let g_lowbits := ior (ior (ior (iand g_intval 0x1f)
        (ishl (iand mode_enc 0x4) 5)) (ishl bit0 6)) (ishl bit1 5)
      let b_lowbits := ior (ior (ior (iand b_intval 0x1f)
        (ishl (iand mode_enc 0x8) 4)) (ishl bit2 6)) (ishl bit3 5)
      do
      let gqu ← quantize_and_unquantize_retain_top_four_bits t L g_lowbits
      let bqu ← quantize_and_unquantize_retain_top_four_bits t L b_lowbits
      let g_intval2 := ior (iand g_intval (inot 0x1f)) (iand (gqu.2 : Int) 0x1f)
      let b_intval2 := ior (iand b_intval (inot 0x1f)) (iand (bqu.2 : Int) 0x1f)
      let g_fval2 : ℚ := (g_intval2 : ℚ) * mode_rscale
      let b_fval2 : ℚ := (b_intval2 : ℚ) * mode_rscale
      let rgb_errorsum := (r_fval - color.r) + (r_fval - g_fval2 - color.g) +
        (r_fval - b_fval2 - color.b)
      let s_fval := clampQ (s_base + rgb_errorsum * mkRat 1 3) 0 1000000000
      let s_intval := flt2int_rtn (s_fval * mode_scale)
      if s_intval ≥ s_intcutoff then
        pure none
      else
        let bit6 := rgbo_bit6 mode r_intval s_intval
        let bit5 := rgbo_bit5 mode r_intval s_intval
        let bit4 := rgbo_bit4 mode r_intval s_intval
        let s_lowbits := ior (ior (ior (iand s_intval 0x1f) (ishl bit6 5))
          (ishl bit5 6)) (ishl bit4 7)
        do
        let squ ← quantize_and_unquantize_retain_top_four_bits t L s_lowbits
        pure (some (r_quantval, gqu.1, bqu.1, squ.1))

/-- The `for (mode = 0; mode < 5; mode++)` loop of `quantize_hdr_rgbo3`. -/
def rgbo3_try_modes (t : QuantTables) (L majcomp : Nat) (color : Color) :
    List Nat → Option (Option (Nat × Nat × Nat × Nat))
  | [] => some none
  | m :: ms =>
    match quantize_hdr_rgbo3_mode t L m majcomp color with
    | none => none
    | some (some r) => some (some r)
    | some none => rgbo3_try_modes t L majcomp color ms

/-- The mode-5 fallback encoding of `quantize_hdr_rgbo3` (`color_bak` is
the offset-added, clamped, unswizzled color). -/
def quantize_hdr_rgbo3_mode5 (t : QuantTables) (L : Nat) (color_bak : Color)
    (buf : List Int) : Option (List Int) :=
  let v0 := clampQ color_bak.r 0 65020
  let v1 := clampQ color_bak.g 0 65020
  let v2 := clampQ color_bak.b 0 65020
  let i0 := flt2int_rtn (v0 * mkRat 1 512)
  let i1 := flt2int_rtn (v1 * mkRat 1 512)
  let i2 := flt2int_rtn (v2 * mkRat 1 512)
  let rgb_errorsum := ((i0 : ℚ) * 512 - v0) + ((i1 : ℚ) * 512 - v1) +
    ((i2 : ℚ) * 512 - v2)
  let v3 := clampQ (color_bak.a + rgb_errorsum * mkRat 1 3) 0 65020
  let i3 := flt2int_rtn (v3 * mkRat 1 512)
  let e0 := ior (iand i0 0x3f) 0xC0
  let e1 := ior (iand i1 0x7f) 0x80
  let e2 := ior (iand i2 0x7f) 0x80
  let e3 := ior (iand i3 0x7f) (ishl (iand i0 0x40) 1)
  do
  let q0 ← quantize_and_unquantize_retain_top_four_bits t L e0
  let q1 ← quantize_and_unquantize_retain_top_four_bits t L e1
  let q2 ← quantize_and_unquantize_retain_top_four_bits t L e2
  let q3 ← quantize_and_unquantize_retain_top_four_bits t L e3
  pure ((((buf.set 0 (q0.1 : Int)).set 1 (q1.1 : Int)).set 2
    (q2.1 : Int)).set 3 (q3.1 : Int))

/-- `quantize_hdr_rgbo3`: HDR RGB + offset ("scale") encoding. -/
def quantize_hdr_rgbo3 (t : QuantTables) (L : Nat) (color : Color)
    (buf : List Int) : Option (List Int) :=
  let cr := clampQ (color.r + color.a) 0 65535
  let cg := clampQ (color.g + color.a) 0 65535
  let cb := clampQ (color.b + color.a) 0 65535
  let ca := clampQ color.a 0 65535
  let color_bak : Color := ⟨cr, cg, cb, ca⟩
  let majcomp : Nat := hdr_majcomp cr cg cb
  let c : Color := hdr_swizzle majcomp color_bak
  match rgbo3_try_modes t L majcomp c [0, 1, 2, 3, 4] with
  | none => none
  | some (some r) =>
    some ((((buf.set 0 (r.1 : Int)).set 1 (r.2.1 : Int)).set 2
      (r.2.2.1 : Int)).set 3 (r.2.2.2 : Int))
  | some none => quantize_hdr_rgbo3_mode5 t L color_bak buf

/-- `mode_bits` of `quantize_hdr_rgb3`: `(a_bits, b_bits, c_bits, d_bits)`. -/
def rgb3_mode_bits : Nat → Nat × Nat × Nat × Nat
  | 0 => (9, 7, 6, 7)
  | 1 => (9, 8, 6, 6)
  | 2 => (10, 6, 7, 7)
  | 3 => (10, 7, 7, 6)
  | 4 => (11, 8, 6, 5)
  | 5 => (11, 6, 8, 6)
  | 6 => (12, 7, 7, 5)
  | _ => (12, 6, 7, 6)

/-- `mode_cutoffs` of `quantize_hdr_rgb3`: `(b_cutoff, c_cutoff, d_cutoff)`
(the fourth table column is unused by the code). -/
def rgb3_mode_cutoffs : Nat → ℚ × ℚ × ℚ
  | 0 => (16384, 8192, 8192)
  | 1 => (32768, 8192, 4096)
  | 2 => (4096, 8192, 4096)
  | 3 => (8192, 8192, 2048)
  | 4 => (8192, 2048, 512)
  | 5 => (2048, 8192, 1024)
  | 6 => (2048, 2048, 256)
  | _ => (1024, 2048, 512)

/-- `mode_scales` of `quantize_hdr_rgb3`. -/
def rgb3_mode_scales : Nat → ℚ
  | 0 => mkRat 1 128
  | 1 => mkRat 1 128
  | 2 => mkRat 1 64
  | 3 => mkRat 1 64
  | 4 => mkRat 1 32
  | 5 => mkRat 1 32
  | _ => mkRat 1 16

/-- `mode_rscales` of `quantize_hdr_rgb3`. -/
def rgb3_mode_rscales : Nat → ℚ
  | 0 => 128
  | 1 => 128
  | 2 => 64
  | 3 => 64
  | 4 => 32
  | 5 => 32
  | _ => 16

/-- The `switch (mode)` scatter ladder for `bit0` of the packed B0 byte of
`quantize_hdr_rgb3`. -/
def rgb3_bit0 (mode : Nat) (a_intval b0_intval : Int) : Int :=
  if mode = 2 ∨ mode = 5 ∨ mode = 7 then iand (ishr a_intval 9) 1
  else iand (ishr b0_intval 6) 1

/-- The scatter ladder for `bit1` of the packed B1 byte. -/
def rgb3_bit1 (mode : Nat) (a_intval c_intval b1_intval : Int) : Int :=
  if mode = 2 then iand (ishr c_intval 6) 1
  else if mode = 5 ∨ mode = 7 then iand (ishr a_intval 10) 1
  else iand (ishr b1_intval 6) 1

/-- The scatter ladder for `bit2` of the packed D0 byte. -/
def rgb3_bit2 (mode : Nat) (a_intval c_intval b0_intval d0_intval : Int) :
    Int :=
  if mode = 0 ∨ mode = 2 then iand (ishr d0_intval 6) 1
  else if mode = 1 ∨ mode = 4 then iand (ishr b0_intval 7) 1
  else if mode = 3 then iand (ishr a_intval 9) 1
  else if mode = 5 then iand (ishr c_intval 7) 1
  else iand (ishr a_intval 11) 1

/-- The scatter ladder for `bit3` of the packed D1 byte. -/
def rgb3_bit3 (mode : Nat) (c_intval b1_intval d1_intval : Int) : Int :=
  if mode = 0 ∨ mode = 2 then iand (ishr d1_intval 6) 1
  else if mode = 1 ∨ mode = 4 then iand (ishr b1_intval 7) 1
  else iand (ishr c_intval 6) 1

/-- The scatter ladder for `bit4` of the packed D0 byte. -/
def rgb3_bit4 (mode : Nat) (a_intval d0_intval : Int) : Int :=
  if mode = 4 ∨ mode = 6 then iand (ishr a_intval 9) 1
  else iand (ishr d0_intval 5) 1

/-- The scatter ladder for `bit5` of the packed D1 byte. -/
def rgb3_bit5 (mode : Nat) (a_intval d1_intval : Int) : Int :=
  if mode = 4 ∨ mode = 6 then iand (ishr a_intval 10) 1
  else iand (ishr d1_intval 5) 1

/-- One iteration of the mode loop of `quantize_hdr_rgb3` (`color0`,
`color1` are the swizzled endpoints).  Returns the six quantized indices
`(a, c, b0, b1, d0, d1)`; `some none` means the mode is skipped. -/
def quantize_hdr_rgb3_mode (t : QuantTables) (L mode majcomp : Nat)
    (color0 color1 : Color)
    (a_base b0_base b1_base c_base d0_base d1_base : ℚ) :
    Option (Option (Nat × Nat × Nat × Nat × Nat × Nat)) :=
  let cut := rgb3_mode_cutoffs mode
  if b0_base > cut.1 ∨ b1_base > cut.1 ∨ c_base > cut.2.1 ∨
     |d0_base| > cut.2.2 ∨ |d1_base| > cut.2.2 then
    some none
  else
    let mode_scale := rgb3_mode_scales mode
    let mode_rscale := rgb3_mode_rscales mode
    let b_intcutoff : Int := 2 ^ (rgb3_mode_bits mode).2.1
    let c_intcutoff : Int := 2 ^ (rgb3_mode_bits mode).2.2.1
    let d_intcutoff : Int := 2 ^ ((rgb3_mode_bits mode).2.2.2 - 1)
    let a_intval0 := flt2int_rtn (a_base * mode_scale)
    let a_lowbits := iand a_intval0 0xFF
    do
    let a_quantval ← qLookup t L a_lowbits
    let a_uquantval := unqI t L a_quantval
    let a_intval := ior (iand a_intval0 (inot 0xFF)) a_uquantval
    let a_fval : ℚ := (a_intval : ℚ) * mode_rscale
    let c_fval := clampQ (a_fval - color0.r) 0 65535
    let c_intval0 := flt2int_rtn (c_fval * mode_scale)
    if c_intval0 ≥ c_intcutoff then
      pure none
    else
      let c_lowbits := ior (ior (iand c_intval0 0x3f)
        (ishl (iand (mode : Int) 1) 7)) (ishr (iand a_intval 0x100) 2)
      do
      let cqu ← quantize_and_unquantize_retain_top_two_bits t L c_lowbits
      let c_intval := ior (iand c_intval0 (inot 0x3F)) (iand (cqu.2 : Int) 0x3F)
      let c_fval2 : ℚ := (c_intval : ℚ) * mode_rscale
      let b0_fval := clampQ (a_fval - color1.g) 0 65535
      let b1_fval := clampQ (a_fval - color1.b) 0 65535
      let b0_intval0 := flt2int_rtn (b0_fval * mode_scale)
      let b1_intval0 := flt2int_rtn (b1_fval * mode_scale)
      if b0_intval0 ≥ b_intcutoff ∨ b1_intval0 ≥ b_intcutoff then
        pure none
      else
        let bit0 := rgb3_bit0 mode a_intval b0_intval0
        let bit1 := rgb3_bit1 mode a_intval c_intval b1_intval0
        let b0_lowbits := ior (ior (iand b0_intval0 0x3f) (ishl bit0 6))
          (ishl (iand (ishr (mode : Int) 1) 1) 7)
        let b1_lowbits := ior (ior (iand b1_intval0 0x3f) (ishl bit1 6))
          (ishl (iand (ishr (mode : Int) 2) 1) 7)
        do
        let b0qu ← quantize_and_unquantize_retain_top_two_bits t L b0_lowbits
        let b1qu ← quantize_and_unquantize_retain_top_two_bits t L b1_lowbits
        let b0_intval := ior (iand b0_intval0 (inot 0x3f))
          (iand (b0qu.2 : Int) 0x3f)
        let b1_intval := ior (iand b1_intval0 (inot 0x3f))
          (iand (b1qu.2 : Int) 0x3f)
        let b0_fval2 : ℚ := (b0_intval : ℚ) * mode_rscale
        let b1_fval2 : ℚ := (b1_intval : ℚ) * mode_rscale
        let d0_fval := clampQ (a_fval - b0_fval2 - c_fval2 - color0.g)
          (-65535) 65535
        let d1_fval := clampQ (a_fval - b1_fval2 - c_fval2 - color0.b)
          (-65535) 65535
        let d0_intval := flt2int_rtn (d0_fval * mode_scale)
        let d1_intval := flt2int_rtn (d1_fval * mode_scale)
        if |d0_intval| ≥ d_intcutoff ∨ |d1_intval| ≥ d_intcutoff then
          pure none
        else
          let bit2 := rgb3_bit2 mode a_intval c_intval b0_intval d0_intval
          let bit3 := rgb3_bit3 mode c_intval b1_intval d1_intval
          let bit4 := rgb3_bit4 mode a_intval d0_intval
          let bit5 := rgb3_bit5 mode a_intval d1_intval
          let d0_lowbits := ior (ior (ior (iand d0_intval 0x1f) (ishl bit2 6))
            (ishl bit4 5)) (ishl (iand (majcomp : Int) 1) 7)
          let d1_lowbits := ior (ior (ior (iand d1_intval 0x1f) (ishl bit3 6))
            (ishl bit5 5)) (ishl (iand (ishr (majcomp : Int) 1) 1) 7)
          do
          let d0qu ← quantize_and_unquantize_retain_top_four_bits t L d0_lowbits
          let d1qu ← quantize_and_unquantize_retain_top_four_bits t L d1_lowbits
          pure (some (a_quantval, cqu.1, b0qu.1, b1qu.1, d0qu.1, d1qu.1))

/-- The `for (mode = 7; mode >= 0; mode--)` loop of `quantize_hdr_rgb3`. -/
def rgb3_try_modes (t : QuantTables) (L majcomp : Nat)
    (color0 color1 : Color)
    (a_base b0_base b1_base c_base d0_base d1_base : ℚ) :
    List Nat → Option (Option (Nat × Nat × Nat × Nat × Nat × Nat))
  | [] => some none
  | m :: ms =>
    match quantize_hdr_rgb3_mode t L m majcomp color0 color1
        a_base b0_base b1_base c_base d0_base d1_base with
    | none => none
    | some (some r) => some (some r)
    | some none => rgb3_try_modes t L majcomp color0 color1
        a_base b0_base b1_base c_base d0_base d1_base ms

/-- The flat 8-8-7 fallback of `quantize_hdr_rgb3` (`c0bak`, `c1bak` are
the clamped, unswizzled endpoints). -/
def quantize_hdr_rgb3_flat (t : QuantTables) (L : Nat) (c0bak c1bak : Color)
    (buf : List Int) : Option (List Int) :=
  let v0 := clampQ c0bak.r 0 65020
  let v1 := clampQ c1bak.r 0 65020
  let v2 := clampQ c0bak.g 0 65020
  let v3 := clampQ c1bak.g 0 65020
  let v4 := clampQ c0bak.b 0 65020
  let v5 := clampQ c1bak.b 0 65020
  do
  let q0 ← qLookup t L (flt2int_rtn (v0 * mkRat 1 256))
  let q1 ← qLookup t L (flt2int_rtn (v1 * mkRat 1 256))
  let q2 ← qLookup t L (flt2int_rtn (v2 * mkRat 1 256))
  let q3 ← qLookup t L (flt2int_rtn (v3 * mkRat 1 256))
  let q4 ← quantize_and_unquantize_retain_top_two_bits t L
    (flt2int_rtn (v4 * mkRat 1 512) + 128)
  let q5 ← quantize_and_unquantize_retain_top_two_bits t L
    (flt2int_rtn (v5 * mkRat 1 512) + 128)
  pure ((((((buf.set 0 (q0 : Int)).set 1 (q1 : Int)).set 2 (q2 : Int)).set 3
    (q3 : Int)).set 4 (q4.1 : Int)).set 5 (q5.1 : Int))

/-- `quantize_hdr_rgb3`: HDR RGB base-plus-offsets encoding. -/
def quantize_hdr_rgb3 (t : QuantTables) (L : Nat) (color0 color1 : Color)
    (buf : List Int) : Option (List Int) :=
  let c0 : Color := ⟨clampQ color0.r 0 65535, clampQ color0.g 0 65535,
    clampQ color0.b 0 65535, color0.a⟩
  let c1 : Color := ⟨clampQ color1.r 0 65535, clampQ color1.g 0 65535,
    clampQ color1.b 0 65535, color1.a⟩
  let majcomp : Nat := hdr_majcomp c1.r c1.g c1.b
  let s0 : Color := hdr_swizzle majcomp c0
  let s1 : Color := hdr_swizzle majcomp c1
  let a_base := clampQ s1.r 0 65535
  let b0_base := a_base - s1.g
  let b1_base := a_base - s1.b
  let c_base := a_base - s0.r
  let d0_base := a_base - b0_base - c_base - s0.g
  let d1_base := a_base - b1_base - c_base - s0.b
  match rgb3_try_modes t L majcomp s0 s1
      a_base b0_base b1_base c_base d0_base d1_base [7, 6, 5, 4, 3, 2, 1, 0] with
  | none => none
  | some (some r) =>
    some ((((((buf.set 0 (r.1 : Int)).set 1 (r.2.1 : Int)).set 2
      (r.2.2.1 : Int)).set 3 (r.2.2.2.1 : Int)).set 4
      (r.2.2.2.2.1 : Int)).set 5 (r.2.2.2.2.2 : Int))
  | some none => quantize_hdr_rgb3_flat t L c0 c1 buf

/-- The shared "enforce `lum0 ≤ lum1` by averaging" step of the HDR
luminance encoders. -/
def lum_order (lum0x lum1x : ℚ) : ℚ × ℚ :=
  if lum1x < lum0x then
    ((lum0x + lum1x) * mkRat 1 2, (lum0x + lum1x) * mkRat 1 2)
  else (lum0x, lum1x)

/-- The `LOW_PRECISION_SUBMODE` tail of
`try_quantize_hdr_luminance_small_range3`. -/
def hdr_lum_small_low (t : QuantTables) (L : Nat) (ilum0 ilum1 : Int)
    (buf : List Int) : Option (Bool × List Int) :=
  let lowval := min (max (ishr (ilum0 + 32) 6) 0) 1023
  let highval := min (max (ishr (ilum1 + 32) 6) 0) 1023
  let v0 := ior (iand lowval 0x7F) 0x80
  do
  let v0e ← qLookup t L v0
  let v0d := unqI t L v0e
  if iand v0d 0x80 = 0 then
    pure (false, buf)
  else
    let lowval2 := ior (iand lowval (inot 0x7F)) (iand v0d 0x7F)
    let diffval := highval - lowval2
    if diffval < 0 ∨ diffval > 31 then
      pure (false, buf)
    else
      let v1 := ior (iand (ishr lowval2 2) 0xE0) diffval
      do
      let v1e ← qLookup t L v1
      let v1d := unqI t L v1e
      if iand v1d 0xE0 ≠ iand v1 0xE0 then
        pure (false, buf)
      else
        pure (true, (buf.set 0 (v0e : Int)).set 1 (v1e : Int))

/-- `try_quantize_hdr_luminance_small_range3`. -/
def try_quantize_hdr_luminance_small_range3 (t : QuantTables) (L : Nat)
    (color0 color1 : Color) (buf : List Int) : Option (Bool × List Int) :=
  let lum1x := (color1.r + color1.g + color1.b) * mkRat 1 3
  let lum0x := (color0.r + color0.g + color0.b) * mkRat 1 3
  let p := lum_order lum0x lum1x
  let ilum1 := flt2int_rtn p.2
  let ilum0 := flt2int_rtn p.1
  if ilum1 - ilum0 > 2048 then
    some (false, buf)
  else
    let lowval := min (max (ishr (ilum0 + 16) 5) 0) 2047
    let highval := min (max (ishr (ilum1 + 16) 5) 0) 2047
    let v0 := iand lowval 0x7F
    do
    let v0e ← qLookup t L v0
    let v0d := unqI t L v0e
    if iand v0d 0x80 = 0x80 then
      hdr_lum_small_low t L ilum0 ilum1 buf
    else
      let lowval2 := ior (iand lowval (inot 0x7F)) (iand v0d 0x7F)
      let diffval := highval - lowval2
      if diffval < 0 ∨ diffval > 15 then
        hdr_lum_small_low t L ilum0 ilum1 buf
      else
        let v1 := ior (iand (ishr lowval2 3) 0xF0) diffval
        do
        let v1e ← qLookup t L v1
        let v1d := unqI t L v1e
        if iand v1d 0xF0 ≠ iand v1 0xF0 then
          hdr_lum_small_low t L ilum0 ilum1 buf
        else
          pure (true, (buf.set 0 (v0e : Int)).set 1 (v1e : Int))

/-- `quantize_hdr_luminance_large_range3`. -/
def quantize_hdr_luminance_large_range3 (t : QuantTables) (L : Nat)
    (color0 color1 : Color) (buf : List Int) : Option (List Int) :=
  let lum1x := (color1.r + color1.g + color1.b) * mkRat 1 3
  let lum0x := (color0.r + color0.g + color0.b) * mkRat 1 3
  let p := lum_order lum0x lum1x
  let ilum1 := flt2int_rtn p.2
  let ilum0 := flt2int_rtn p.1
  let upper_v0 := min (max (ishr (ilum0 + 128) 8) 0) 255
  let upper_v1 := min (max (ishr (ilum1 + 128) 8) 0) 255
  let lower_v0 := min (max (ishr (ilum1 + 256) 8) 0) 255
  let lower_v1 := min (max (ishr ilum0 8) 0) 255
  let upper0_dec := ishl upper_v0 8
  let upper1_dec := ishl upper_v1 8
  let lower0_dec := ishl lower_v1 8 + 128
  let lower1_dec := ishl lower_v0 8 - 128
  let upper0_diff := upper0_dec - ilum0
  let upper1_diff := upper1_dec - ilum1
  let lower0_diff := lower0_dec - ilum0
  let lower1_diff := lower1_dec - ilum1
  let upper_error := upper0_diff * upper0_diff + upper1_diff * upper1_diff
  let lower_error := lower0_diff * lower0_diff + lower1_diff * lower1_diff
  let v := if upper_error < lower_error then (upper_v0, upper_v1)
    else (lower_v0, lower_v1)
  do
  let o0 ← qLookup t L v.1
  let o1 ← qLookup t L v.2
  pure ((buf.set 0 (o0 : Int)).set 1 (o1 : Int))

/-- The `testbits` table of `quantize_hdr_alpha3`
(`{0xE0, 0xF0, 0xF8}` indexed by the submode). -/
def alpha3_testbits (i : Nat) : Int :=
  if i = 2 then 0xF8 else if i = 1 then 0xF0 else 0xE0

/-- One delta submode `i ∈ {2,1,0}` of `quantize_hdr_alpha3`; `some none`
means `continue` to the next submode. -/
def hdr_alpha3_submode (t : QuantTables) (L i : Nat) (ialpha0 ialpha1 : Int) :
    Option (Option (Nat × Nat)) :=
  let val0 := ishr (ialpha0 + ishr 128 i) (8 - i)
  let val1 := ishr (ialpha1 + ishr 128 i) (8 - i)
  let v6 := ior (iand val0 0x7F) (ishl (iand (i : Int) 1) 7)
  do
  let v6e ← qLookup t L v6
  let v6d := unqI t L v6e
  if iand (ixor v6 v6d) 0x80 ≠ 0 then
    pure none
  else
    let val0x := ior (iand val0 (inot 0x7f)) (iand v6d 0x7f)
    let diffval := val1 - val0x
    let cutoff : Int := ishr 32 i
    let mask := 2 * cutoff - 1
    if diffval < -cutoff ∨ diffval ≥ cutoff then
      pure none
    else
      let v7 := ior (ior (ishl (iand (i : Int) 2) 6)
        (ishl (ishr val0x 7) (6 - i))) (iand diffval mask)
      do
      let v7e ← qLookup t L v7
      let v7d := unqI t L v7e
      if iand (ixor v7 v7d) (alpha3_testbits i) ≠ 0 then
        pure none
      else
        pure (some (v6e, v7e))

/-- The `for (i = 2; i >= 0; i--)` submode loop of `quantize_hdr_alpha3`. -/
def hdr_alpha3_try_submodes (t : QuantTables) (L : Nat)
    (ialpha0 ialpha1 : Int) : List Nat → Option (Option (Nat × Nat))
  | [] => some none
  | i :: is =>
    match hdr_alpha3_submode t L i ialpha0 ialpha1 with
    | none => none
    | some (some r) => some (some r)
    | some none => hdr_alpha3_try_submodes t L ialpha0 ialpha1 is

/-- `quantize_hdr_alpha3`, writing slots `base` and `base + 1` (the C code
receives `output + 6` from `quantize_hdr_rgb_alpha3`). -/
def quantize_hdr_alpha3 (t : QuantTables) (L : Nat) (alpha0 alpha1 : ℚ)
    (buf : List Int) (base : Nat) : Option (List Int) :=
  let a0 := clampQ alpha0 0 65280
  let a1 := clampQ alpha1 0 65280
  let ialpha0 := flt2int_rtn a0
  let ialpha1 := flt2int_rtn a1
  match hdr_alpha3_try_submodes t L ialpha0 ialpha1 [2, 1, 0] with
  | none => none
  | some (some r) =>
    some ((buf.set base (r.1 : Int)).set (base + 1) (r.2 : Int))
  | some none =>
    let v6 := ior (ishr (ialpha0 + 256) 9) 0x80
    let v7 := ior (ishr (ialpha1 + 256) 9) 0x80
    do
    let v6e ← qLookup t L v6
    let v7e ← qLookup t L v7
    pure ((buf.set base (v6e : Int)).set (base + 1) (v7e : Int))

/-- `quantize_hdr_rgb_ldr_alpha3`. -/
def quantize_hdr_rgb_ldr_alpha3 (t : QuantTables) (L : Nat)
    (color0 color1 : Color) (buf : List Int) : Option (List Int) := do
  let c0 : Color := { color0 with a := color0.a * scale257 }
  let c1 : Color := { color1 with a := color1.a * scale257 }
  let buf1 ← quantize_hdr_rgb3 t L c0 c1 buf
  let a0 := clamp255f c0.a
  let a1 := clamp255f c1.a
  let ai0 ← qLookup t L (flt2int_rtn a0)
  let ai1 ← qLookup t L (flt2int_rtn a1)
  pure ((buf1.set 6 (ai0 : Int)).set 7 (ai1 : Int))

/-- `quantize_hdr_rgb_alpha3`. -/
def quantize_hdr_rgb_alpha3 (t : QuantTables) (L : Nat)
    (color0 color1 : Color) (buf : List Int) : Option (List Int) := do
  let buf1 ← quantize_hdr_rgb3 t L color0 color1 buf
  quantize_hdr_alpha3 t L color0.a color1.a buf1 6

/-! ### The dispatcher -/

/-- The endpoint format tags (`FMT_*` in `astcenc_internal.h`;
`FMT_LUMINANCE` is the zero member, which `pack_color_endpoints` returns
when no switch case matches). -/
inductive Fmt where
  | FMT_LUMINANCE
  | FMT_LUMINANCE_ALPHA
  | FMT_LUMINANCE_ALPHA_DELTA
  | FMT_RGB
  | FMT_RGB_DELTA
  | FMT_RGBA
  | FMT_RGBA_DELTA
  | FMT_RGB_SCALE
  | FMT_RGB_SCALE_ALPHA
  | FMT_HDR_RGB_SCALE
  | FMT_HDR_RGB
  | FMT_HDR_RGB_LDR_ALPHA
  | FMT_HDR_RGBA
  | FMT_HDR_LUMINANCE_SMALL_RANGE
  | FMT_HDR_LUMINANCE_LARGE_RANGE
deriving DecidableEq

export Fmt (FMT_LUMINANCE FMT_LUMINANCE_ALPHA FMT_LUMINANCE_ALPHA_DELTA
  FMT_RGB FMT_RGB_DELTA FMT_RGBA FMT_RGBA_DELTA FMT_RGB_SCALE
  FMT_RGB_SCALE_ALPHA FMT_HDR_RGB_SCALE FMT_HDR_RGB FMT_HDR_RGB_LDR_ALPHA
  FMT_HDR_RGBA FMT_HDR_LUMINANCE_SMALL_RANGE FMT_HDR_LUMINANCE_LARGE_RANGE)

/-- The dispatcher's clamp of negative input components
(`color0.r = MAX(color0.r, 0.0f)` and friends). -/
def clampNeg (c : Color) : Color :=
  ⟨max c.r 0, max c.g 0, max c.b 0, max c.a 0⟩

/-- The blue-contract / plain tail of the `FMT_RGB` dispatcher case. -/
def pack_fmt_rgb_rest (t : QuantTables) (L : Nat) (color0 color1 : Color)
    (buf : List Int) : Option (Fmt × List Int) := do
  let r3 ← try_quantize_rgb_blue_contract t L color0 color1 buf
  if r3.1 then
    pure (FMT_RGB, r3.2)
  else
    let buf4 ← quantize_rgb t L color0 color1 r3.2
    pure (FMT_RGB, buf4)

/-- The `FMT_RGB` dispatcher case. -/
def pack_fmt_rgb (t : QuantTables) (L : Nat) (color0 color1 : Color)
    (buf : List Int) : Option (Fmt × List Int) :=
  if L ≤ 18 then do
    let r1 ← try_quantize_rgb_delta_blue_contract t L color0 color1 buf
    if r1.1 then
      pure (FMT_RGB_DELTA, r1.2)
    else
      let r2 ← try_quantize_rgb_delta t L color0 color1 r1.2
      if r2.1 then
        pure (FMT_RGB_DELTA, r2.2)
      else
        pack_fmt_rgb_rest t L color0 color1 r2.2
  else
    pack_fmt_rgb_rest t L color0 color1 buf

/-- The blue-contract / plain tail of the `FMT_RGBA` dispatcher case. -/
def pack_fmt_rgba_rest (t : QuantTables) (L : Nat) (color0 color1 : Color)
    (buf : List Int) : Option (Fmt × List Int) := do
  let r3 ← try_quantize_rgba_blue_contract t L color0 color1 buf
  if r3.1 then
    pure (FMT_RGBA, r3.2)
  else
    let buf4 ← quantize_rgba t L color0 color1 r3.2
    pure (FMT_RGBA, buf4)

/-- The `FMT_RGBA` dispatcher case. -/
def pack_fmt_rgba (t : QuantTables) (L : Nat) (color0 color1 : Color)
    (buf : List Int) : Option (Fmt × List Int) :=
  if L ≤ 18 then do
    let r1 ← try_quantize_rgba_delta_blue_contract t L color0 color1 buf
    if r1.1 then
      pure (FMT_RGBA_DELTA, r1.2)
    else
      let r2 ← try_quantize_rgba_delta t L color0 color1 r1.2
      if r2.1 then
        pure (FMT_RGBA_DELTA, r2.2)
      else
        pack_fmt_rgba_rest t L color0 color1 r2.2
  else
    pack_fmt_rgba_rest t L color0 color1 buf

/-- `pack_color_endpoints`: clamp negative inputs, dispatch on the
requested format, and report the format actually emitted together with
the final output buffer. -/
def pack_color_endpoints (t : QuantTables) (color0 color1 rgbs_color
    rgbo_color : Color) (format : Fmt) (buf : List Int) (L : Nat) :
    Option (Fmt × List Int) :=
  let c0 := clampNeg color0
  let c1 := clampNeg color1
  match format with
  | FMT_RGB => pack_fmt_rgb t L c0 c1 buf
  | FMT_RGBA => pack_fmt_rgba t L c0 c1 buf
  | FMT_RGB_SCALE => do
    let buf1 ← quantize_rgbs_new t L rgbs_color buf
    pure (FMT_RGB_SCALE, buf1)
  | FMT_HDR_RGB_SCALE => do
    let buf1 ← quantize_hdr_rgbo3 t L rgbo_color buf
    pure (FMT_HDR_RGB_SCALE, buf1)
  | FMT_HDR_RGB => do
    let buf1 ← quantize_hdr_rgb3 t L c0 c1 buf
    pure (FMT_HDR_RGB, buf1)
  | FMT_RGB_SCALE_ALPHA => do
    let buf1 ← quantize_rgbs_alpha_new t L c0 c1 rgbs_color buf
    pure (FMT_RGB_SCALE_ALPHA, buf1)
  | FMT_HDR_LUMINANCE_SMALL_RANGE => do
    let r ← try_quantize_hdr_luminance_small_range3 t L c0 c1 buf
    if r.1 then
      pure (FMT_HDR_LUMINANCE_SMALL_RANGE, r.2)
    else
      let buf2 ← quantize_hdr_luminance_large_range3 t L c0 c1 r.2
      pure (FMT_HDR_LUMINANCE_LARGE_RANGE, buf2)
  | FMT_HDR_LUMINANCE_LARGE_RANGE => do
    let r ← try_quantize_hdr_luminance_small_range3 t L c0 c1 buf
    if r.1 then
      pure (FMT_HDR_LUMINANCE_SMALL_RANGE, r.2)
    else
      let buf2 ← quantize_hdr_luminance_large_range3 t L c0 c1 r.2
      pure (FMT_HDR_LUMINANCE_LARGE_RANGE, buf2)
  | FMT_LUMINANCE => do
    let buf1 ← quantize_luminance t L c0 c1 buf
    pure (FMT_LUMINANCE, buf1)
  | FMT_LUMINANCE_ALPHA =>
    if L ≤ 18 then do
      let r ← try_quantize_luminance_alpha_delta t L c0 c1 buf
      if r.1 then
        pure (FMT_LUMINANCE_ALPHA_DELTA, r.2)
      else
        let buf2 ← quantize_luminance_alpha t L c0 c1 r.2
        pure (FMT_LUMINANCE_ALPHA, buf2)
    else do
      let buf2 ← quantize_luminance_alpha t L c0 c1 buf
      pure (FMT_LUMINANCE_ALPHA, buf2)
  | FMT_HDR_RGB_LDR_ALPHA => do
    let buf1 ← quantize_hdr_rgb_ldr_alpha3 t L c0 c1 buf
    pure (FMT_HDR_RGB_LDR_ALPHA, buf1)
  | FMT_HDR_RGBA => do
    let buf1 ← quantize_hdr_rgb_alpha3 t L c0 c1 buf
    pure (FMT_HDR_RGBA, buf1)
  | _ => some (FMT_LUMINANCE, buf)

/-! ### Observables used by the theorems -/

/-- Read slot `i` of an output buffer (0 when out of range). -/
def bget (l : List Int) (i : Nat) : Int := (l[i]?).getD 0

/-- `x` is a value read from the level-`L` quantization table. -/
def QuantVal (t : QuantTables) (L : Nat) (x : Int) : Prop :=
  ∃ w, w ≤ 255 ∧ x = t.quant L w

/-- `b'` is `b` with only slots `< k` changed, every changed slot holding a
quantization-table value. -/
def Writes (t : QuantTables) (L k : Nat) (b b' : List Int) : Prop :=
  b'.length = b.length ∧
    ∀ i, bget b' i = bget b i ∨ (i < k ∧ QuantVal t L (bget b' i))

/-- The emitted vector length of each format tag (§3 of the spec). -/
def fmtLen : Fmt → Nat
  | FMT_LUMINANCE => 2
  | FMT_HDR_LUMINANCE_SMALL_RANGE => 2
  | FMT_HDR_LUMINANCE_LARGE_RANGE => 2
  | FMT_LUMINANCE_ALPHA => 4
  | FMT_LUMINANCE_ALPHA_DELTA => 4
  | FMT_RGB_SCALE => 4
  | FMT_HDR_RGB_SCALE => 4
  | FMT_RGB => 6
  | FMT_RGB_DELTA => 6
  | FMT_RGB_SCALE_ALPHA => 6
  | FMT_HDR_RGB => 6
  | FMT_RGBA => 8
  | FMT_RGBA_DELTA => 8
  | FMT_HDR_RGB_LDR_ALPHA => 8
  | FMT_HDR_RGBA => 8

/-- Non-negative color (the precondition the dispatcher establishes by
clamping). -/
def NNeg (c : Color) : Prop := 0 ≤ c.r ∧ 0 ≤ c.g ∧ 0 ≤ c.b ∧ 0 ≤ c.a

/-- The decoder-side signed offset recovered from an emitted delta index
`e`: unquantize it and sign-extend the low seven bits. -/
def decoded_offset (t : QuantTables) (L : Nat) (e : Int) : Int :=
  sext7 (unqI t L e.toNat)

/-- The order invariant of the plain LDR RGB encoding: the unquantized
endpoint-0 sum does not exceed the unquantized endpoint-1 sum. -/
def decSumLe (t : QuantTables) (L : Nat) (out : List Int) : Prop :=
  t.unquant L (bget out 0).toNat + t.unquant L (bget out 2).toNat +
      t.unquant L (bget out 4).toNat ≤
    t.unquant L (bget out 1).toNat + t.unquant L (bget out 3).toNat +
      t.unquant L (bget out 5).toNat

/-- The `diffval` computed by submode `i` of `quantize_hdr_alpha3` (after
the `val0` round trip). -/
def alpha3_diffval (t : QuantTables) (L i : Nat) (ia0 ia1 : Int) : Int :=
  let val0 := ishr (ia0 + ishr 128 i) (8 - i)
  let val1 := ishr (ia1 + ishr 128 i) (8 - i)
  let v6 := ior (iand val0 0x7F) (ishl (iand (i : Int) 1) 7)
  let v6d := unqI t L (t.quant L v6.toNat)
  let val0x := ior (iand val0 (inot 0x7f)) (iand v6d 0x7f)
  val1 - val0x

/-! ### Buffer lemmas -/

theorem bget_set_ne (l : List Int) (i j : Nat) (v : Int) (h : i ≠ j) :
    bget (l.set i v) j = bget l j := by
  simp [bget, List.getElem?_set_ne h]

theorem bget_set_eq (l : List Int) (i : Nat) (v : Int) :
    bget (l.set i v) i = if (l[i]?).isSome then v else bget l i := by
  simp only [bget, List.getElem?_set_self']
  cases l[i]? <;> simp

theorem Writes.refl (t : QuantTables) (L k : Nat) (b : List Int) :
    Writes t L k b b := ⟨rfl, fun _ => Or.inl rfl⟩

theorem Writes.trans {t : QuantTables} {L k : Nat} {b b' b'' : List Int}
    (h1 : Writes t L k b b') (h2 : Writes t L k b' b'') :
    Writes t L k b b'' := by
  refine ⟨h2.1.trans h1.1, fun i => ?_⟩
  rcases h2.2 i with h | h
  · rw [h]; exact h1.2 i
  · exact Or.inr h

theorem Writes.set {t : QuantTables} {L k : Nat} {b b' : List Int}
    (h1 : Writes t L k b b') {i : Nat} (hi : i < k) {v : Int}
    (hv : QuantVal t L v) : Writes t L k b (b'.set i v) := by
  refine ⟨(List.length_set b' i v).trans h1.1, fun j => ?_⟩
  rcases Decidable.em (i = j) with rfl | hne
  · rw [bget_set_eq]
    split
    · exact Or.inr ⟨hi, hv⟩
    · exact h1.2 i
  · rw [bget_set_ne _ _ _ _ hne]
    exact h1.2 j

theorem Writes.mono {t : QuantTables} {L k k' : Nat} {b b' : List Int}
    (h : Writes t L k b b') (hk : k ≤ k') : Writes t L k' b b' := by
  refine ⟨h.1, fun i => ?_⟩
  rcases h.2 i with h' | h'
  · exact Or.inl h'
  · exact Or.inr ⟨lt_of_lt_of_le h'.1 hk, h'.2⟩

theorem qLookup_quantVal {t : QuantTables} {L : Nat} {v : Int} {q : Nat}
    (h : qLookup t L v = some q) : QuantVal t L (q : Int) := by
  unfold qLookup at h
  split at h
  · rename_i hv
    refine ⟨v.toNat, ?_, by simp_all⟩
    omega
  · exact absurd h (by simp)

theorem qLookup_bound {t : QuantTables} {L : Nat} {v : Int} {q : Nat}
    (h : qLookup t L v = some q) : 0 ≤ v ∧ v ≤ 255 := by
  unfold qLookup at h
  split at h
  · assumption
  · exact absurd h (by simp)

theorem cqt_lookup_quantVal (t : QuantTables) (L : Nat) (v : Int) :
    QuantVal t L (cqt_lookup t L v : Int) := by
  refine ⟨(min (max v 0) 255).toNat, ?_, rfl⟩
  have h1 : min (max v 0) 255 ≤ 255 := min_le_right _ _
  omega

theorem retain_loop_quantVal {t : QuantTables} {L mask : Nat} :
    ∀ {fuel : Nat} {v : Int} {q u : Nat},
      retain_loop t L mask fuel v = some (q, u) →
      QuantVal t L (q : Int) ∧ u = t.unquant L q := by
  intro fuel
  induction fuel with
  | zero => intro v q u h; exact absurd h (by simp [retain_loop])
  | succ n ih =>
    intro v q u h
    unfold retain_loop at h
    cases hq : qLookup t L v with
    | none => rw [hq] at h; exact absurd h (by simp)
    | some qv =>
      rw [hq] at h
      simp only at h
      split at h
      · obtain ⟨rfl, rfl⟩ := Prod.mk.injEq .. ▸ Option.some.injEq .. ▸ h
        exact ⟨qLookup_quantVal hq, rfl⟩
      · exact ih h

theorem delta_chan_quantVal {t : QuantTables} {L : Nat} {x0 x1 : Int}
    {ch : DeltaChan} (h : delta_chan t L x0 x1 = some (some ch)) :
    QuantVal t L (ch.e0 : Int) ∧ QuantVal t L (ch.e1 : Int) := by
  unfold delta_chan at h
  simp only [Option.bind_eq_bind, Option.bind_eq_some, Option.pure_def,
    Option.some.injEq] at h
  obtain ⟨e0, he0, h⟩ := h
  split at h
  · exact Option.noConfusion (Option.some.inj h)
  · simp only [Option.bind_eq_bind, Option.bind_eq_some, Option.pure_def,
      Option.some.injEq] at h
    obtain ⟨e1, he1, h⟩ := h
    split at h
    · exact Option.noConfusion (Option.some.inj h)
    · obtain rfl := Option.some.inj (Option.some.inj h)
      exact ⟨qLookup_quantVal he0, qLookup_quantVal he1⟩

theorem writes_quantize_rgb_loop {t : QuantTables} {L : Nat}
    {r0 g0 b0 r1 g1 b1 : ℚ} : ∀ {fuel : Nat} {a0 a1 : ℚ} {buf buf' : List Int},
    quantize_rgb_loop t L r0 g0 b0 r1 g1 b1 fuel a0 a1 buf = some buf' →
    Writes t L 6 buf buf' := by
  intro fuel
  induction fuel with
  | zero =>
    intro a0 a1 buf buf' h
    exact absurd h (by simp [quantize_rgb_loop])
  | succ n ih =>
    intro a0 a1 buf buf' h
    unfold quantize_rgb_loop at h
    dsimp only at h
    split at h
    · exact ih h
    · obtain rfl := Option.some.inj h
      apply Writes.set _ (by decide) (cqt_lookup_quantVal t L _)
      apply Writes.set _ (by decide) (cqt_lookup_quantVal t L _)
      apply Writes.set _ (by decide) (cqt_lookup_quantVal t L _)
      apply Writes.set _ (by decide) (cqt_lookup_quantVal t L _)
      apply Writes.set _ (by decide) (cqt_lookup_quantVal t L _)
      apply Writes.set _ (by decide) (cqt_lookup_quantVal t L _)
      exact Writes.refl t L 6 buf

theorem writes_quantize_rgb {t : QuantTables} {L : Nat} {c0 c1 : Color}
    {buf buf' : List Int} (h : quantize_rgb t L c0 c1 buf = some buf') :
    Writes t L 6 buf buf' :=
  writes_quantize_rgb_loop h

theorem writes_quantize_rgba {t : QuantTables} {L : Nat} {c0 c1 : Color}
    {buf buf' : List Int} (h : quantize_rgba t L c0 c1 buf = some buf') :
    Writes t L 8 buf buf' := by
  unfold quantize_rgba at h
  simp only [Option.bind_eq_bind, Option.bind_eq_some] at h
  obtain ⟨a0, ha0, a1, ha1, h⟩ := h
  refine Writes.trans ?_ ((writes_quantize_rgb h).mono (by decide))
  apply Writes.set _ (by decide) (qLookup_quantVal ha1)
  apply Writes.set _ (by decide) (qLookup_quantVal ha0)
  exact Writes.refl t L 8 buf

theorem writes_try_quantize_rgb_blue_contract {t : QuantTables} {L : Nat}
    {c0 c1 : Color} {buf : List Int} {r : Bool × List Int}
    (h : try_quantize_rgb_blue_contract t L c0 c1 buf = some r) :
    Writes t L 6 buf r.2 := by
  unfold try_quantize_rgb_blue_contract at h
  dsimp only at h
  split at h
  · obtain rfl := Option.some.inj h
    exact Writes.refl t L 6 buf
  · simp only [Option.bind_eq_bind, Option.bind_eq_some, Option.pure_def,
      Option.some.injEq] at h
    obtain ⟨q1, h1, q2, h2, q3, h3, q4, h4, q5, h5, q6, h6, h⟩ := h
    split at h
    · first | obtain rfl := Option.some.inj h | obtain rfl := h
      exact Writes.refl t L 6 buf
    · first | obtain rfl := Option.some.inj h | obtain rfl := h
      apply Writes.set _ (by decide) (qLookup_quantVal h3)
      apply Writes.set _ (by decide) (qLookup_quantVal h6)
      apply Writes.set _ (by decide) (qLookup_quantVal h2)
      apply Writes.set _ (by decide) (qLookup_quantVal h5)
      apply Writes.set _ (by decide) (qLookup_quantVal h1)
      apply Writes.set _ (by decide) (qLookup_quantVal h4)
      exact Writes.refl t L 6 buf

theorem writes_try_quantize_rgba_blue_contract {t : QuantTables} {L : Nat}
    {c0 c1 : Color} {buf : List Int} {r : Bool × List Int}
    (h : try_quantize_rgba_blue_contract t L c0 c1 buf = some r) :
    Writes t L 8 buf r.2 := by
  unfold try_quantize_rgba_blue_contract at h
  simp only [Option.bind_eq_bind, Option.bind_eq_some] at h
  obtain ⟨a0, ha0, a1, ha1, h⟩ := h
  refine Writes.trans ?_
    ((writes_try_quantize_rgb_blue_contract h).mono (by decide))
  apply Writes.set _ (by decide) (qLookup_quantVal ha1)
  apply Writes.set _ (by decide) (qLookup_quantVal ha0)
  exact Writes.refl t L 8 buf

theorem writes_try_quantize_rgb_delta {t : QuantTables} {L : Nat}
    {c0 c1 : Color} {buf : List Int} {r : Bool × List Int}
    (h : try_quantize_rgb_delta t L c0 c1 buf = some r) :
    Writes t L 6 buf r.2 := by
  unfold try_quantize_rgb_delta at h
  simp only [Option.bind_eq_bind, Option.bind_eq_some] at h
  obtain ⟨cr, hcr, cg, hcg, cb, hcb, h⟩ := h
  rcases cr with _ | cr <;> rcases cg with _ | cg <;> rcases cb with _ | cb <;>
    simp only [Option.pure_def, Option.some.injEq] at h <;>
    try (obtain rfl := h; exact Writes.refl t L 6 buf)
  split at h
  · first | obtain rfl := Option.some.inj h | obtain rfl := h
    exact Writes.refl t L 6 buf
  · split at h
    · first | obtain rfl := Option.some.inj h | obtain rfl := h
      exact Writes.refl t L 6 buf
    · first | obtain rfl := Option.some.inj h | obtain rfl := h
      apply Writes.set _ (by decide) (delta_chan_quantVal hcb).2
      apply Writes.set _ (by decide) (delta_chan_quantVal hcb).1
      apply Writes.set _ (by decide) (delta_chan_quantVal hcg).2
      apply Writes.set _ (by decide) (delta_chan_quantVal hcg).1
      apply Writes.set _ (by decide) (delta_chan_quantVal hcr).2
      apply Writes.set _ (by decide) (delta_chan_quantVal hcr).1
      exact Writes.refl t L 6 buf

theorem writes_try_quantize_rgb_delta_blue_contract {t : QuantTables}
    {L : Nat} {c0 c1 : Color} {buf : List Int} {r : Bool × List Int}
    (h : try_quantize_rgb_delta_blue_contract t L c0 c1 buf = some r) :
    Writes t L 6 buf r.2 := by
  unfold try_quantize_rgb_delta_blue_contract at h
  dsimp only at h
  split at h
  · obtain rfl := Option.some.inj h
    exact Writes.refl t L 6 buf
  · simp only [Option.bind_eq_bind, Option.bind_eq_some] at h
    obtain ⟨cr, hcr, cg, hcg, cb, hcb, h⟩ := h
    rcases cr with _ | cr <;> rcases cg with _ | cg <;> rcases cb with _ | cb <;>
      simp only [Option.pure_def, Option.some.injEq] at h <;>
      try (obtain rfl := h; exact Writes.refl t L 6 buf)
    split at h
    · first | obtain rfl := Option.some.inj h | obtain rfl := h
      exact Writes.refl t L 6 buf
    · split at h
      · first | obtain rfl := Option.some.inj h | obtain rfl := h
        exact Writes.refl t L 6 buf
      · first | obtain rfl := Option.some.inj h | obtain rfl := h
        apply Writes.set _ (by decide) (delta_chan_quantVal hcb).2
        apply Writes.set _ (by decide) (delta_chan_quantVal hcb).1
        apply Writes.set _ (by decide) (delta_chan_quantVal hcg).2
        apply Writes.set _ (by decide) (delta_chan_quantVal hcg).1
        apply Writes.set _ (by decide) (delta_chan_quantVal hcr).2
        apply Writes.set _ (by decide) (delta_chan_quantVal hcr).1
        exact Writes.refl t L 6 buf

theorem writes_try_quantize_alpha_delta {t : QuantTables} {L : Nat}
    {c0 c1 : Color} {buf : List Int} {r : Bool × List Int}
    (h : try_quantize_alpha_delta t L c0 c1 buf = some r) :
    Writes t L 8 buf r.2 := by
  unfold try_quantize_alpha_delta at h
  simp only [Option.bind_eq_bind, Option.bind_eq_some] at h
  obtain ⟨ca, hca, h⟩ := h
  rcases ca with _ | ca <;>
    simp only [Option.pure_def, Option.some.injEq] at h
  · first | obtain rfl := Option.some.inj h | obtain rfl := h
    exact Writes.refl t L 8 buf
  · split at h
    · first | obtain rfl := Option.some.inj h | obtain rfl := h
      exact Writes.refl t L 8 buf
    · first | obtain rfl := Option.some.inj h | obtain rfl := h
      apply Writes.set _ (by decide) (delta_chan_quantVal hca).2
      apply Writes.set _ (by decide) (delta_chan_quantVal hca).1
      exact Writes.refl t L 8 buf

theorem writes_try_quantize_luminance_alpha_delta {t : QuantTables} {L : Nat}
    {c0 c1 : Color} {buf : List Int} {r : Bool × List Int}
    (h : try_quantize_luminance_alpha_delta t L c0 c1 buf = some r) :
    Writes t L 4 buf r.2 := by
  unfold try_quantize_luminance_alpha_delta at h
  simp only [Option.bind_eq_bind, Option.bind_eq_some] at h
  obtain ⟨cl, hcl, ca, hca, h⟩ := h
  rcases cl with _ | cl <;> rcases ca with _ | ca <;>
    simp only [Option.pure_def, Option.some.injEq] at h <;>
    try (obtain rfl := h; exact Writes.refl t L 4 buf)
  split at h
  · first | obtain rfl := Option.some.inj h | obtain rfl := h
    exact Writes.refl t L 4 buf
  · split at h
    · first | obtain rfl := Option.some.inj h | obtain rfl := h
      exact Writes.refl t L 4 buf
    · first | obtain rfl := Option.some.inj h | obtain rfl := h
      apply Writes.set _ (by decide) (delta_chan_quantVal hca).2
      apply Writes.set _ (by decide) (delta_chan_quantVal hca).1
      apply Writes.set _ (by decide) (delta_chan_quantVal hcl).2
      apply Writes.set _ (by decide) (delta_chan_quantVal hcl).1
      exact Writes.refl t L 4 buf

theorem writes_try_quantize_rgba_delta {t : QuantTables} {L : Nat}
    {c0 c1 : Color} {buf : List Int} {r : Bool × List Int}
    (h : try_quantize_rgba_delta t L c0 c1 buf = some r) :
    Writes t L 8 buf r.2 := by
  unfold try_quantize_rgba_delta at h
  simp only [Option.bind_eq_bind, Option.bind_eq_some] at h
  obtain ⟨⟨aok, buf1⟩, ha, h⟩ := h
  have w1 : Writes t L 8 buf buf1 := writes_try_quantize_alpha_delta ha
  split at h
  · obtain rfl := Option.some.inj h
    exact w1
  · exact w1.trans ((writes_try_quantize_rgb_delta h).mono (by decide))

theorem writes_try_quantize_rgba_delta_blue_contract {t : QuantTables}
    {L : Nat} {c0 c1 : Color} {buf : List Int} {r : Bool × List Int}
    (h : try_quantize_rgba_delta_blue_contract t L c0 c1 buf = some r) :
    Writes t L 8 buf r.2 := by
  unfold try_quantize_rgba_delta_blue_contract at h
  simp only [Option.bind_eq_bind, Option.bind_eq_some] at h
  obtain ⟨⟨aok, buf1⟩, ha, h⟩ := h
  have w1 : Writes t L 8 buf buf1 := writes_try_quantize_alpha_delta ha
  split at h
  · obtain rfl := Option.some.inj h
    exact w1
  · exact w1.trans
      ((writes_try_quantize_rgb_delta_blue_contract h).mono (by decide))

theorem writes_quantize_rgbs_new {t : QuantTables} {L : Nat} {c : Color}
    {buf buf' : List Int} (h : quantize_rgbs_new t L c buf = some buf') :
    Writes t L 4 buf buf' := by
  unfold quantize_rgbs_new at h
  simp only [Option.bind_eq_bind, Option.bind_eq_some, Option.pure_def,
    Option.some.injEq] at h
  obtain ⟨q1, h1, q2, h2, q3, h3, q4, h4, h⟩ := h
  first | obtain rfl := Option.some.inj h | obtain rfl := h
  apply Writes.set _ (by decide) (qLookup_quantVal h4)
  apply Writes.set _ (by decide) (qLookup_quantVal h3)
  apply Writes.set _ (by decide) (qLookup_quantVal h2)
  apply Writes.set _ (by decide) (qLookup_quantVal h1)
  exact Writes.refl t L 4 buf

theorem writes_quantize_rgbs_alpha_new {t : QuantTables} {L : Nat}
    {c0 c1 cs : Color} {buf buf' : List Int}
    (h : quantize_rgbs_alpha_new t L c0 c1 cs buf = some buf') :
    Writes t L 6 buf buf' := by
  unfold quantize_rgbs_alpha_new at h
  simp only [Option.bind_eq_bind, Option.bind_eq_some] at h
  obtain ⟨a0, ha0, a1, ha1, h⟩ := h
  refine Writes.trans ?_ ((writes_quantize_rgbs_new h).mono (by decide))
  apply Writes.set _ (by decide) (qLookup_quantVal ha1)
  apply Writes.set _ (by decide) (qLookup_quantVal ha0)
  exact Writes.refl t L 6 buf

theorem writes_quantize_luminance {t : QuantTables} {L : Nat} {c0 c1 : Color}
    {buf buf' : List Int} (h : quantize_luminance t L c0 c1 buf = some buf') :
    Writes t L 2 buf buf' := by
  unfold quantize_luminance at h
  simp only [Option.bind_eq_bind, Option.bind_eq_some, Option.pure_def,
    Option.some.injEq] at h
  obtain ⟨q1, h1, q2, h2, h⟩ := h
  first | obtain rfl := Option.some.inj h | obtain rfl := h
  apply Writes.set _ (by decide) (qLookup_quantVal h2)
  apply Writes.set _ (by decide) (qLookup_quantVal h1)
  exact Writes.refl t L 2 buf

theorem writes_quantize_luminance_alpha {t : QuantTables} {L : Nat}
    {c0 c1 : Color} {buf buf' : List Int}
    (h : quantize_luminance_alpha t L c0 c1 buf = some buf') :
    Writes t L 4 buf buf' := by
  unfold quantize_luminance_alpha at h
  simp only [Option.bind_eq_bind, Option.bind_eq_some, Option.pure_def,
    Option.some.injEq] at h
  obtain ⟨q1, h1, q2, h2, q3, h3, q4, h4, h⟩ := h
  first | obtain rfl := Option.some.inj h | obtain rfl := h
  apply Writes.set _ (by decide) (qLookup_quantVal h4)
  apply Writes.set _ (by decide) (qLookup_quantVal h3)
  apply Writes.set _ (by decide) (qLookup_quantVal h2)
  apply Writes.set _ (by decide) (qLookup_quantVal h1)
  exact Writes.refl t L 4 buf

theorem retain2_quantVal {t : QuantTables} {L : Nat} {v : Int} {r : Nat × Nat}
    (h : quantize_and_unquantize_retain_top_two_bits t L v = some r) :
    QuantVal t L (r.1 : Int) := by
  obtain ⟨q, u⟩ := r
  exact (retain_loop_quantVal h).1

theorem retain4_quantVal {t : QuantTables} {L : Nat} {v : Int} {r : Nat × Nat}
    (h : quantize_and_unquantize_retain_top_four_bits t L v = some r) :
    QuantVal t L (r.1 : Int) := by
  obtain ⟨q, u⟩ := r
  exact (retain_loop_quantVal h).1

theorem rgbo3_mode_quantVal {t : QuantTables} {L mode majcomp : Nat}
    {color : Color} {r : Nat × Nat × Nat × Nat}
    (h : quantize_hdr_rgbo3_mode t L mode majcomp color = some (some r)) :
    QuantVal t L (r.1 : Int) ∧ QuantVal t L (r.2.1 : Int) ∧
      QuantVal t L (r.2.2.1 : Int) ∧ QuantVal t L (r.2.2.2 : Int) := by
  unfold quantize_hdr_rgbo3_mode at h
  dsimp only at h
  split at h
  · exact Option.noConfusion (Option.some.inj h)
  · simp only [Option.bind_eq_bind, Option.bind_eq_some, Option.pure_def,
      Option.some.injEq] at h
    obtain ⟨rqu, hr, h⟩ := h
    split at h
    · exact Option.noConfusion (Option.some.inj h)
    · simp only [Option.bind_eq_bind, Option.bind_eq_some, Option.pure_def,
        Option.some.injEq] at h
      obtain ⟨gqu, hg, bqu, hb, h⟩ := h
      split at h
      · exact Option.noConfusion (Option.some.inj h)
      · simp only [Option.bind_eq_bind, Option.bind_eq_some, Option.pure_def,
          Option.some.injEq] at h
        obtain ⟨squ, hs, h⟩ := h
        first | obtain rfl := Option.some.inj (Option.some.inj h) | obtain rfl := h
        refine ⟨?_, ?_, ?_, ?_⟩
        · show QuantVal t L (rqu.1 : Int)
          exact retain2_quantVal hr
        · show QuantVal t L (gqu.1 : Int)
          exact retain4_quantVal hg
        · show QuantVal t L (bqu.1 : Int)
          exact retain4_quantVal hb
        · show QuantVal t L (squ.1 : Int)
          exact retain4_quantVal hs

theorem rgbo3_try_modes_quantVal {t : QuantTables} {L majcomp : Nat}
    {color : Color} : ∀ {ms : List Nat} {r : Nat × Nat × Nat × Nat},
    rgbo3_try_modes t L majcomp color ms = some (some r) →
    QuantVal t L (r.1 : Int) ∧ QuantVal t L (r.2.1 : Int) ∧
      QuantVal t L (r.2.2.1 : Int) ∧ QuantVal t L (r.2.2.2 : Int) := by
  intro ms
  induction ms with
  | nil =>
    intro r h
    exact absurd h (by simp [rgbo3_try_modes])
  | cons m ms ih =>
    intro r h
    unfold rgbo3_try_modes at h
    rcases hm : quantize_hdr_rgbo3_mode t L m majcomp color with _ | rr
    · rw [hm] at h
      exact Option.noConfusion h
    · rcases rr with _ | r'
      · rw [hm] at h
        exact ih h
      · rw [hm] at h
        exact (Option.some.inj (Option.some.inj h)) ▸ rgbo3_mode_quantVal hm

theorem writes_quantize_hdr_rgbo3_mode5 {t : QuantTables} {L : Nat}
    {c : Color} {buf buf' : List Int}
    (h : quantize_hdr_rgbo3_mode5 t L c buf = some buf') :
    Writes t L 4 buf buf' := by
  unfold quantize_hdr_rgbo3_mode5 at h
  simp only [Option.bind_eq_bind, Option.bind_eq_some, Option.pure_def,
    Option.some.injEq] at h
  obtain ⟨q0, h0, q1, h1, q2, h2, q3, h3, h⟩ := h
  first | obtain rfl := Option.some.inj h | obtain rfl := h
  apply Writes.set _ (by decide) (retain4_quantVal h3)
  apply Writes.set _ (by decide) (retain4_quantVal h2)
  apply Writes.set _ (by decide) (retain4_quantVal h1)
  apply Writes.set _ (by decide) (retain4_quantVal h0)
  exact Writes.refl t L 4 buf

theorem writes_quantize_hdr_rgbo3 {t : QuantTables} {L : Nat} {c : Color}
    {buf buf' : List Int} (h : quantize_hdr_rgbo3 t L c buf = some buf') :
    Writes t L 4 buf buf' := by
  unfold quantize_hdr_rgbo3 at h
  dsimp only at h
  rcases hm : rgbo3_try_modes t L
    (hdr_majcomp (clampQ (c.r + c.a) 0 65535) (clampQ (c.g + c.a) 0 65535)
      (clampQ (c.b + c.a) 0 65535))
    (hdr_swizzle
      (hdr_majcomp (clampQ (c.r + c.a) 0 65535) (clampQ (c.g + c.a) 0 65535)
        (clampQ (c.b + c.a) 0 65535))
      ⟨clampQ (c.r + c.a) 0 65535, clampQ (c.g + c.a) 0 65535,
        clampQ (c.b + c.a) 0 65535, clampQ c.a 0 65535⟩)
    [0, 1, 2, 3, 4] with _ | rr
  · rw [hm] at h
    exact Option.noConfusion h
  · rcases rr with _ | r'
    · rw [hm] at h
      exact writes_quantize_hdr_rgbo3_mode5 h
    · rw [hm] at h
      obtain rfl := Option.some.inj h
      obtain ⟨hv1, hv2, hv3, hv4⟩ := rgbo3_try_modes_quantVal hm
      apply Writes.set _ (by decide) hv4
      apply Writes.set _ (by decide) hv3
      apply Writes.set _ (by decide) hv2
      apply Writes.set _ (by decide) hv1
      exact Writes.refl t L 4 buf

theorem rgb3_mode_quantVal {t : QuantTables} {L mode majcomp : Nat}
    {color0 color1 : Color} {ab b0b b1b cb d0b d1b : ℚ}
    {r : Nat × Nat × Nat × Nat × Nat × Nat}
    (h : quantize_hdr_rgb3_mode t L mode majcomp color0 color1
      ab b0b b1b cb d0b d1b = some (some r)) :
    QuantVal t L (r.1 : Int) ∧ QuantVal t L (r.2.1 : Int) ∧
      QuantVal t L (r.2.2.1 : Int) ∧ QuantVal t L (r.2.2.2.1 : Int) ∧
      QuantVal t L (r.2.2.2.2.1 : Int) ∧ QuantVal t L (r.2.2.2.2.2 : Int) := by
  unfold quantize_hdr_rgb3_mode at h
  dsimp only at h
  split at h
  · exact Option.noConfusion (Option.some.inj h)
  · simp only [Option.bind_eq_bind, Option.bind_eq_some, Option.pure_def,
      Option.some.injEq] at h
    obtain ⟨ae, ha, h⟩ := h
    split at h
    · exact Option.noConfusion (Option.some.inj h)
    · simp only [Option.bind_eq_bind, Option.bind_eq_some, Option.pure_def,
        Option.some.injEq] at h
      obtain ⟨cqu, hc, h⟩ := h
      split at h
      · exact Option.noConfusion (Option.some.inj h)
      · simp only [Option.bind_eq_bind, Option.bind_eq_some, Option.pure_def,
          Option.some.injEq] at h
        obtain ⟨b0qu, hb0, b1qu, hb1, h⟩ := h
        split at h
        · exact Option.noConfusion (Option.some.inj h)
        · simp only [Option.bind_eq_bind, Option.bind_eq_some, Option.pure_def,
            Option.some.injEq] at h
          obtain ⟨d0qu, hd0, d1qu, hd1, h⟩ := h
          first | obtain rfl := Option.some.inj (Option.some.inj h)
                | obtain rfl := h
          refine ⟨?_, ?_, ?_, ?_, ?_, ?_⟩
          · show QuantVal t L (ae : Int)
            exact qLookup_quantVal ha
          · show QuantVal t L (cqu.1 : Int)
            exact retain2_quantVal hc
          · show QuantVal t L (b0qu.1 : Int)
            exact retain2_quantVal hb0
          · show QuantVal t L (b1qu.1 : Int)
            exact retain2_quantVal hb1
          · show QuantVal t L (d0qu.1 : Int)
            exact retain4_quantVal hd0
          · show QuantVal t L (d1qu.1 : Int)
            exact retain4_quantVal hd1

theorem rgb3_try_modes_quantVal {t : QuantTables} {L majcomp : Nat}
    {color0 color1 : Color} {ab b0b b1b cb d0b d1b : ℚ} :
    ∀ {ms : List Nat} {r : Nat × Nat × Nat × Nat × Nat × Nat},
    rgb3_try_modes t L majcomp color0 color1 ab b0b b1b cb d0b d1b ms =
      some (some r) →
    QuantVal t L (r.1 : Int) ∧ QuantVal t L (r.2.1 : Int) ∧
      QuantVal t L (r.2.2.1 : Int) ∧ QuantVal t L (r.2.2.2.1 : Int) ∧
      QuantVal t L (r.2.2.2.2.1 : Int) ∧ QuantVal t L (r.2.2.2.2.2 : Int) := by
  intro ms
  induction ms with
  | nil =>
    intro r h
    exact absurd h (by simp [rgb3_try_modes])
  | cons m ms ih =>
    intro r h
    unfold rgb3_try_modes at h
    split at h
    · exact Option.noConfusion h
    · rename_i r' heq
      first | obtain rfl := Option.some.inj (Option.some.inj h)
            | obtain rfl := (Option.some.inj (Option.some.inj h)).symm
      exact rgb3_mode_quantVal heq
    · exact ih h

theorem writes_quantize_hdr_rgb3_flat {t : QuantTables} {L : Nat}
    {c0 c1 : Color} {buf buf' : List Int}
    (h : quantize_hdr_rgb3_flat t L c0 c1 buf = some buf') :
    Writes t L 6 buf buf' := by
  unfold quantize_hdr_rgb3_flat at h
  simp only [Option.bind_eq_bind, Option.bind_eq_some, Option.pure_def,
    Option.some.injEq] at h
  obtain ⟨q0, h0, q1, h1, q2, h2, q3, h3, q4, h4, q5, h5, h⟩ := h
  first | obtain rfl := Option.some.inj h | obtain rfl := h
  apply Writes.set _ (by decide) (retain2_quantVal h5)
  apply Writes.set _ (by decide) (retain2_quantVal h4)
  apply Writes.set _ (by decide) (qLookup_quantVal h3)
  apply Writes.set _ (by decide) (qLookup_quantVal h2)
  apply Writes.set _ (by decide) (qLookup_quantVal h1)
  apply Writes.set _ (by decide) (qLookup_quantVal h0)
  exact Writes.refl t L 6 buf

theorem writes_quantize_hdr_rgb3 {t : QuantTables} {L : Nat} {c0 c1 : Color}
    {buf buf' : List Int} (h : quantize_hdr_rgb3 t L c0 c1 buf = some buf') :
    Writes t L 6 buf buf' := by
  unfold quantize_hdr_rgb3 at h
  dsimp only at h
  split at h
  · exact Option.noConfusion h
  · rename_i r' heq
    obtain rfl := Option.some.inj h
    obtain ⟨h1, h2, h3, h4, h5, h6⟩ := rgb3_try_modes_quantVal heq
    apply Writes.set _ (by decide) h6
    apply Writes.set _ (by decide) h5
    apply Writes.set _ (by decide) h4
    apply Writes.set _ (by decide) h3
    apply Writes.set _ (by decide) h2
    apply Writes.set _ (by decide) h1
    exact Writes.refl t L 6 buf
  · exact writes_quantize_hdr_rgb3_flat h

theorem writes_hdr_lum_small_low {t : QuantTables} {L : Nat} {i0 i1 : Int}
    {buf : List Int} {r : Bool × List Int}
    (h : hdr_lum_small_low t L i0 i1 buf = some r) : Writes t L 2 buf r.2 := by
  unfold hdr_lum_small_low at h
  simp only [Option.bind_eq_bind, Option.bind_eq_some, Option.pure_def,
    Option.some.injEq] at h
  obtain ⟨v0e, h0, h⟩ := h
  split at h
  · first | obtain rfl := Option.some.inj h | obtain rfl := h
    exact Writes.refl t L 2 buf
  · split at h
    · first | obtain rfl := Option.some.inj h | obtain rfl := h
      exact Writes.refl t L 2 buf
    · simp only [Option.bind_eq_bind, Option.bind_eq_some, Option.pure_def,
        Option.some.injEq] at h
      obtain ⟨v1e, h1, h⟩ := h
      split at h
      · first | obtain rfl := Option.some.inj h | obtain rfl := h
        exact Writes.refl t L 2 buf
      · first | obtain rfl := Option.some.inj h | obtain rfl := h
        apply Writes.set _ (by decide) (qLookup_quantVal h1)
        apply Writes.set _ (by decide) (qLookup_quantVal h0)
        exact Writes.refl t L 2 buf

theorem writes_try_quantize_hdr_luminance_small_range3 {t : QuantTables}
    {L : Nat} {c0 c1 : Color} {buf : List Int} {r : Bool × List Int}
    (h : try_quantize_hdr_luminance_small_range3 t L c0 c1 buf = some r) :
    Writes t L 2 buf r.2 := by
  unfold try_quantize_hdr_luminance_small_range3 at h
  dsimp only at h
  split at h
  · first | obtain rfl := Option.some.inj h | obtain rfl := h
    exact Writes.refl t L 2 buf
  · simp only [Option.bind_eq_bind, Option.bind_eq_some, Option.pure_def,
      Option.some.injEq] at h
    obtain ⟨v0e, h0, h⟩ := h
    split at h
    · exact writes_hdr_lum_small_low h
    · split at h
      · exact writes_hdr_lum_small_low h
      · simp only [Option.bind_eq_bind, Option.bind_eq_some, Option.pure_def,
          Option.some.injEq] at h
        obtain ⟨v1e, h1, h⟩ := h
        split at h
        · exact writes_hdr_lum_small_low h
        · first | obtain rfl := Option.some.inj h | obtain rfl := h
          apply Writes.set _ (by decide) (qLookup_quantVal h1)
          apply Writes.set _ (by decide) (qLookup_quantVal h0)
          exact Writes.refl t L 2 buf

theorem writes_quantize_hdr_luminance_large_range3 {t : QuantTables}
    {L : Nat} {c0 c1 : Color} {buf buf' : List Int}
    (h : quantize_hdr_luminance_large_range3 t L c0 c1 buf = some buf') :
    Writes t L 2 buf buf' := by
  unfold quantize_hdr_luminance_large_range3 at h
  simp only [Option.bind_eq_bind, Option.bind_eq_some, Option.pure_def,
    Option.some.injEq] at h
  obtain ⟨o0, h0, o1, h1, h⟩ := h
  first | obtain rfl := Option.some.inj h | obtain rfl := h
  apply Writes.set _ (by decide) (qLookup_quantVal h1)
  apply Writes.set _ (by decide) (qLookup_quantVal h0)
  exact Writes.refl t L 2 buf

theorem hdr_alpha3_submode_quantVal {t : QuantTables} {L i : Nat}
    {ia0 ia1 : Int} {r : Nat × Nat}
    (h : hdr_alpha3_submode t L i ia0 ia1 = some (some r)) :
    QuantVal t L (r.1 : Int) ∧ QuantVal t L (r.2 : Int) := by
  unfold hdr_alpha3_submode at h
  simp only [Option.bind_eq_bind, Option.bind_eq_some, Option.pure_def,
    Option.some.injEq] at h
  obtain ⟨v6e, h6, h⟩ := h
  split at h
  · exact Option.noConfusion (Option.some.inj h)
  · split at h
    · exact Option.noConfusion (Option.some.inj h)
    · simp only [Option.bind_eq_bind, Option.bind_eq_some, Option.pure_def,
        Option.some.injEq] at h
      obtain ⟨v7e, h7, h⟩ := h
      split at h
      · exact Option.noConfusion (Option.some.inj h)
      · first | obtain rfl := Option.some.inj (Option.some.inj h)
              | obtain rfl := h
        exact ⟨qLookup_quantVal h6, qLookup_quantVal h7⟩

theorem hdr_alpha3_try_submodes_quantVal {t : QuantTables} {L : Nat}
    {ia0 ia1 : Int} : ∀ {ms : List Nat} {r : Nat × Nat},
    hdr_alpha3_try_submodes t L ia0 ia1 ms = some (some r) →
    QuantVal t L (r.1 : Int) ∧ QuantVal t L (r.2 : Int) := by
  intro ms
  induction ms with
  | nil =>
    intro r h
    exact absurd h (by simp [hdr_alpha3_try_submodes])
  | cons m ms ih =>
    intro r h
    rw [hdr_alpha3_try_submodes] at h
    split at h
    · exact Option.noConfusion h
    · rename_i r' heq
      first | obtain rfl := Option.some.inj (Option.some.inj h)
            | obtain rfl := (Option.some.inj (Option.some.inj h)).symm
      exact hdr_alpha3_submode_quantVal heq
    · exact ih h

theorem writes_quantize_hdr_alpha3 {t : QuantTables} {L : Nat} {a0 a1 : ℚ}
    {base : Nat} {buf buf' : List Int}
    (h : quantize_hdr_alpha3 t L a0 a1 buf base = some buf') :
    Writes t L (base + 2) buf buf' := by
  unfold quantize_hdr_alpha3 at h
  dsimp only at h
  split at h
  · exact Option.noConfusion h
  · rename_i r' heq
    obtain rfl := Option.some.inj h
    obtain ⟨h1, h2⟩ := hdr_alpha3_try_submodes_quantVal heq
    apply Writes.set _ (by omega) h2
    apply Writes.set _ (by omega) h1
    exact Writes.refl t L (base + 2) buf
  · simp only [Option.bind_eq_bind, Option.bind_eq_some, Option.pure_def,
      Option.some.injEq] at h
    obtain ⟨v6e, h6, v7e, h7, h⟩ := h
    first | obtain rfl := Option.some.inj h | obtain rfl := h
    apply Writes.set _ (by omega) (qLookup_quantVal h7)
    apply Writes.set _ (by omega) (qLookup_quantVal h6)
    exact Writes.refl t L (base + 2) buf

theorem writes_quantize_hdr_rgb_ldr_alpha3 {t : QuantTables} {L : Nat}
    {c0 c1 : Color} {buf buf' : List Int}
    (h : quantize_hdr_rgb_ldr_alpha3 t L c0 c1 buf = some buf') :
    Writes t L 8 buf buf' := by
  unfold quantize_hdr_rgb_ldr_alpha3 at h
  simp only [Option.bind_eq_bind, Option.bind_eq_some, Option.pure_def,
    Option.some.injEq] at h
  obtain ⟨buf1, hb1, ai0, h0, ai1, h1, h⟩ := h
  first | obtain rfl := Option.some.inj h | obtain rfl := h
  refine Writes.trans ((writes_quantize_hdr_rgb3 hb1).mono (by decide)) ?_
  apply Writes.set _ (by decide) (qLookup_quantVal h1)
  apply Writes.set _ (by decide) (qLookup_quantVal h0)
  exact Writes.refl t L 8 buf1

theorem writes_quantize_hdr_rgb_alpha3 {t : QuantTables} {L : Nat}
    {c0 c1 : Color} {buf buf' : List Int}
    (h : quantize_hdr_rgb_alpha3 t L c0 c1 buf = some buf') :
    Writes t L 8 buf buf' := by
  unfold quantize_hdr_rgb_alpha3 at h
  simp only [Option.bind_eq_bind, Option.bind_eq_some] at h
  obtain ⟨buf1, hb1, h⟩ := h
  exact Writes.trans ((writes_quantize_hdr_rgb3 hb1).mono (by decide))
    (writes_quantize_hdr_alpha3 h)

theorem writes_pack_fmt_rgb_rest {t : QuantTables} {L : Nat} {c0 c1 : Color}
    {buf buf' : List Int} {tag : Fmt}
    (h : pack_fmt_rgb_rest t L c0 c1 buf = some (tag, buf')) :
    tag = FMT_RGB ∧ Writes t L 6 buf buf' := by
  unfold pack_fmt_rgb_rest at h
  simp only [Option.bind_eq_bind, Option.bind_eq_some, Option.pure_def,
    Option.some.injEq, Prod.mk.injEq] at h
  obtain ⟨r3, h3, h⟩ := h
  split at h
  · obtain ⟨rfl, rfl⟩ := h
    exact ⟨rfl, writes_try_quantize_rgb_blue_contract h3⟩
  · simp only [Option.bind_eq_bind, Option.bind_eq_some, Option.pure_def,
      Option.some.injEq, Prod.mk.injEq] at h
    obtain ⟨buf4, h4, rfl, rfl⟩ := h
    exact ⟨rfl, (writes_try_quantize_rgb_blue_contract h3).trans
      (writes_quantize_rgb h4)⟩

theorem writes_pack_fmt_rgb {t : QuantTables} {L : Nat} {c0 c1 : Color}
    {buf buf' : List Int} {tag : Fmt}
    (h : pack_fmt_rgb t L c0 c1 buf = some (tag, buf')) :
    (tag = FMT_RGB ∨ tag = FMT_RGB_DELTA) ∧ Writes t L 6 buf buf' := by
  unfold pack_fmt_rgb at h
  split at h
  · simp only [Option.bind_eq_bind, Option.bind_eq_some, Option.pure_def,
      Option.some.injEq, Prod.mk.injEq] at h
    obtain ⟨r1, h1, h⟩ := h
    split at h
    · obtain ⟨rfl, rfl⟩ := h
      exact ⟨Or.inr rfl, writes_try_quantize_rgb_delta_blue_contract h1⟩
    · simp only [Option.bind_eq_bind, Option.bind_eq_some, Option.pure_def,
        Option.some.injEq, Prod.mk.injEq] at h
      obtain ⟨r2, h2, h⟩ := h
      split at h
      · obtain ⟨rfl, rfl⟩ := h
        exact ⟨Or.inr rfl, (writes_try_quantize_rgb_delta_blue_contract
          h1).trans (writes_try_quantize_rgb_delta h2)⟩
      · obtain ⟨hr, hw⟩ := writes_pack_fmt_rgb_rest h
        exact ⟨Or.inl hr, ((writes_try_quantize_rgb_delta_blue_contract
          h1).trans (writes_try_quantize_rgb_delta h2)).trans hw⟩
  · obtain ⟨hr, hw⟩ := writes_pack_fmt_rgb_rest h
    exact ⟨Or.inl hr, hw⟩

theorem writes_pack_fmt_rgba_rest {t : QuantTables} {L : Nat} {c0 c1 : Color}
    {buf buf' : List Int} {tag : Fmt}
    (h : pack_fmt_rgba_rest t L c0 c1 buf = some (tag, buf')) :
    tag = FMT_RGBA ∧ Writes t L 8 buf buf' := by
  unfold pack_fmt_rgba_rest at h
  simp only [Option.bind_eq_bind, Option.bind_eq_some, Option.pure_def,
    Option.some.injEq, Prod.mk.injEq] at h
  obtain ⟨r3, h3, h⟩ := h
  split at h
  · obtain ⟨rfl, rfl⟩ := h
    exact ⟨rfl, writes_try_quantize_rgba_blue_contract h3⟩
  · simp only [Option.bind_eq_bind, Option.bind_eq_some, Option.pure_def,
      Option.some.injEq, Prod.mk.injEq] at h
    obtain ⟨buf4, h4, rfl, rfl⟩ := h
    exact ⟨rfl, (writes_try_quantize_rgba_blue_contract h3).trans
      (writes_quantize_rgba h4)⟩

theorem writes_pack_fmt_rgba {t : QuantTables} {L : Nat} {c0 c1 : Color}
    {buf buf' : List Int} {tag : Fmt}
    (h : pack_fmt_rgba t L c0 c1 buf = some (tag, buf')) :
    (tag = FMT_RGBA ∨ tag = FMT_RGBA_DELTA) ∧ Writes t L 8 buf buf' := by
  unfold pack_fmt_rgba at h
  split at h
  · simp only [Option.bind_eq_bind, Option.bind_eq_some, Option.pure_def,
      Option.some.injEq, Prod.mk.injEq] at h
    obtain ⟨r1, h1, h⟩ := h
    split at h
    · obtain ⟨rfl, rfl⟩ := h
      exact ⟨Or.inr rfl, writes_try_quantize_rgba_delta_blue_contract h1⟩
    · simp only [Option.bind_eq_bind, Option.bind_eq_some, Option.pure_def,
        Option.some.injEq, Prod.mk.injEq] at h
      obtain ⟨r2, h2, h⟩ := h
      split at h
      · obtain ⟨rfl, rfl⟩ := h
        exact ⟨Or.inr rfl, (writes_try_quantize_rgba_delta_blue_contract
          h1).trans (writes_try_quantize_rgba_delta h2)⟩
      · obtain ⟨hr, hw⟩ := writes_pack_fmt_rgba_rest h
        exact ⟨Or.inl hr, ((writes_try_quantize_rgba_delta_blue_contract
          h1).trans (writes_try_quantize_rgba_delta h2)).trans hw⟩
  · obtain ⟨hr, hw⟩ := writes_pack_fmt_rgba_rest h
    exact ⟨Or.inl hr, hw⟩

/-- Master write lemma for the dispatcher: on success, only the first
`fmtLen tag` slots of the buffer change, and every changed slot holds a
value read from `quant[L]`. -/
theorem writes_pack_color_endpoints {t : QuantTables} {c0 c1 cs co : Color}
    {fmt : Fmt} {buf : List Int} {L : Nat} {tag : Fmt} {buf' : List Int}
    (h : pack_color_endpoints t c0 c1 cs co fmt buf L = some (tag, buf')) :
    Writes t L (fmtLen tag) buf buf' := by
  cases fmt <;> unfold pack_color_endpoints at h <;> dsimp only at h
  case FMT_RGB =>
    obtain ⟨hr, hw⟩ := writes_pack_fmt_rgb h
    rcases hr with rfl | rfl <;> exact hw
  case FMT_RGBA =>
    obtain ⟨hr, hw⟩ := writes_pack_fmt_rgba h
    rcases hr with rfl | rfl <;> exact hw
  case FMT_RGB_SCALE =>
    simp only [Option.bind_eq_bind, Option.bind_eq_some, Option.pure_def,
      Option.some.injEq, Prod.mk.injEq] at h
    obtain ⟨buf1, h1, rfl, rfl⟩ := h
    exact writes_quantize_rgbs_new h1
  case FMT_HDR_RGB_SCALE =>
    simp only [Option.bind_eq_bind, Option.bind_eq_some, Option.pure_def,
      Option.some.injEq, Prod.mk.injEq] at h
    obtain ⟨buf1, h1, rfl, rfl⟩ := h
    exact writes_quantize_hdr_rgbo3 h1
  case FMT_HDR_RGB =>
    simp only [Option.bind_eq_bind, Option.bind_eq_some, Option.pure_def,
      Option.some.injEq, Prod.mk.injEq] at h
    obtain ⟨buf1, h1, rfl, rfl⟩ := h
    exact writes_quantize_hdr_rgb3 h1
  case FMT_RGB_SCALE_ALPHA =>
    simp only [Option.bind_eq_bind, Option.bind_eq_some, Option.pure_def,
      Option.some.injEq, Prod.mk.injEq] at h
    obtain ⟨buf1, h1, rfl, rfl⟩ := h
    exact writes_quantize_rgbs_alpha_new h1
  case FMT_HDR_LUMINANCE_SMALL_RANGE =>
    simp only [Option.bind_eq_bind, Option.bind_eq_some, Option.pure_def,
      Option.some.injEq, Prod.mk.injEq] at h
    obtain ⟨r, h1, h⟩ := h
    split at h
    · obtain ⟨rfl, rfl⟩ := h
      exact writes_try_quantize_hdr_luminance_small_range3 h1
    · simp only [Option.bind_eq_bind, Option.bind_eq_some, Option.pure_def,
        Option.some.injEq, Prod.mk.injEq] at h
      obtain ⟨buf2, h2, rfl, rfl⟩ := h
      exact (writes_try_quantize_hdr_luminance_small_range3 h1).trans
        (writes_quantize_hdr_luminance_large_range3 h2)
  case FMT_HDR_LUMINANCE_LARGE_RANGE =>
    simp only [Option.bind_eq_bind, Option.bind_eq_some, Option.pure_def,
      Option.some.injEq, Prod.mk.injEq] at h
    obtain ⟨r, h1, h⟩ := h
    split at h
    · obtain ⟨rfl, rfl⟩ := h
      exact writes_try_quantize_hdr_luminance_small_range3 h1
    · simp only [Option.bind_eq_bind, Option.bind_eq_some, Option.pure_def,
        Option.some.injEq, Prod.mk.injEq] at h
      obtain ⟨buf2, h2, rfl, rfl⟩ := h
      exact (writes_try_quantize_hdr_luminance_small_range3 h1).trans
        (writes_quantize_hdr_luminance_large_range3 h2)
  case FMT_LUMINANCE =>
    simp only [Option.bind_eq_bind, Option.bind_eq_some, Option.pure_def,
      Option.some.injEq, Prod.mk.injEq] at h
    obtain ⟨buf1, h1, rfl, rfl⟩ := h
    exact writes_quantize_luminance h1
  case FMT_LUMINANCE_ALPHA =>
    split at h
    · simp only [Option.bind_eq_bind, Option.bind_eq_some, Option.pure_def,
        Option.some.injEq, Prod.mk.injEq] at h
      obtain ⟨r, h1, h⟩ := h
      split at h
      · obtain ⟨rfl, rfl⟩ := h
        exact writes_try_quantize_luminance_alpha_delta h1
      · simp only [Option.bind_eq_bind, Option.bind_eq_some, Option.pure_def,
          Option.some.injEq, Prod.mk.injEq] at h
        obtain ⟨buf2, h2, rfl, rfl⟩ := h
        exact (writes_try_quantize_luminance_alpha_delta h1).trans
          (writes_quantize_luminance_alpha h2)
    · simp only [Option.bind_eq_bind, Option.bind_eq_some, Option.pure_def,
        Option.some.injEq, Prod.mk.injEq] at h
      obtain ⟨buf2, h2, rfl, rfl⟩ := h
      exact writes_quantize_luminance_alpha h2
  case FMT_HDR_RGB_LDR_ALPHA =>
    simp only [Option.bind_eq_bind, Option.bind_eq_some, Option.pure_def,
      Option.some.injEq, Prod.mk.injEq] at h
    obtain ⟨buf1, h1, rfl, rfl⟩ := h
    exact writes_quantize_hdr_rgb_ldr_alpha3 h1
  case FMT_HDR_RGBA =>
    simp only [Option.bind_eq_bind, Option.bind_eq_some, Option.pure_def,
      Option.some.injEq, Prod.mk.injEq] at h
    obtain ⟨buf1, h1, rfl, rfl⟩ := h
    exact writes_quantize_hdr_rgb_alpha3 h1
  all_goals
    simp only [Option.some.injEq, Prod.mk.injEq] at h
    obtain ⟨rfl, rfl⟩ := h
    exact Writes.refl t L _ buf

/-! ### Claim theorems -/

/-- C2: for every quantization level `L` in `[0,20]`, every requested
format, and all inputs, under the hypothesis that every entry of
`quant[L]` lies in `[0, N)`, every integer `pack_color_endpoints` writes
into the output buffer is a value read from `quant[L]` and therefore lies
in `[0, N-1]`: every slot of the result either still holds its old value
or holds `quant[L][w]` for some byte `w`, a value in `[0, N)`. -/
theorem pack_color_endpoints_emits_quant_values {t : QuantTables}
    {c0 c1 cs co : Color} {fmt : Fmt} {buf : List Int} {L N : Nat}
    {tag : Fmt} {buf' : List Int} (hL : L ≤ 20)
    (hN : ∀ v, v < 256 → t.quant L v < N)
    (h : pack_color_endpoints t c0 c1 cs co fmt buf L = some (tag, buf')) :
    ∀ i, bget buf' i = bget buf i ∨
      (∃ w, w ≤ 255 ∧ bget buf' i = (t.quant L w : Int)) ∧
        0 ≤ bget buf' i ∧ bget buf' i < (N : Int) := by
  intro i
  rcases (writes_pack_color_endpoints h).2 i with h' | ⟨_, w, hw, he⟩
  · exact Or.inl h'
  · refine Or.inr ⟨⟨w, hw, he⟩, ?_, ?_⟩
    · rw [he]; exact Int.natCast_nonneg _
    · rw [he]; exact_mod_cast hN w (by omega)

set_option maxRecDepth 8000 in
/-- Witness for C2 at a concrete input (identity tables, level 18,
`N = 256`, the `LUMINANCE` request from the spec's test table). -/
theorem pack_color_endpoints_emits_quant_values_witness :
    bget [(100 : Int), 100, 9, 9, 9, 9, 9, 9] 0 =
        bget [(9 : Int), 9, 9, 9, 9, 9, 9, 9] 0 ∨
      (∃ w, w ≤ 255 ∧ bget [(100 : Int), 100, 9, 9, 9, 9, 9, 9] 0 =
          (idTables.quant 18 w : Int)) ∧
        0 ≤ bget [(100 : Int), 100, 9, 9, 9, 9, 9, 9] 0 ∧
        bget [(100 : Int), 100, 9, 9, 9, 9, 9, 9] 0 < ((256 : Nat) : Int) :=
  pack_color_endpoints_emits_quant_values (by decide) (by decide)
    (by decide :
      pack_color_endpoints idTables ⟨25700, 25700, 25700, 0⟩
        ⟨25700, 25700, 25700, 0⟩ ⟨0, 0, 0, 0⟩ ⟨0, 0, 0, 0⟩ FMT_LUMINANCE
        [9, 9, 9, 9, 9, 9, 9, 9] 18 =
      some (FMT_LUMINANCE, [100, 100, 9, 9, 9, 9, 9, 9])) 0

/-- C9: for every requested format, level, and inputs, a successful
`pack_color_endpoints` call writes only the first `k` slots of the output
buffer, where `k = fmtLen tag` is the emitted vector length of the chosen
format (2 for luminance and HDR luminance, 4 for luminance+alpha,
rgb-scale and hdr-rgb-scale, 6 for the rgb variants, rgb-scale+alpha and
hdr-rgb, 8 for the rgba variants and the HDR formats with alpha); slots
at indices `≥ k` keep their previous contents. -/
theorem pack_color_endpoints_writes_only_emitted_slots {t : QuantTables}
    {c0 c1 cs co : Color} {fmt : Fmt} {buf : List Int} {L : Nat}
    {tag : Fmt} {buf' : List Int}
    (h : pack_color_endpoints t c0 c1 cs co fmt buf L = some (tag, buf')) :
    ∀ i, fmtLen tag ≤ i → bget buf' i = bget buf i := by
  intro i hi
  rcases (writes_pack_color_endpoints h).2 i with h' | ⟨hk, _⟩
  · exact h'
  · omega

set_option maxRecDepth 8000 in
/-- Witness for C9: the luminance request writes slots 0 and 1 only, so
slot 5 keeps its previous content. -/
theorem pack_color_endpoints_writes_only_emitted_slots_witness :
    bget [(100 : Int), 100, 9, 9, 9, 9, 9, 9] 5 =
      bget [(9 : Int), 9, 9, 9, 9, 9, 9, 9] 5 :=
  pack_color_endpoints_writes_only_emitted_slots
    (by decide :
      pack_color_endpoints idTables ⟨25700, 25700, 25700, 0⟩
        ⟨25700, 25700, 25700, 0⟩ ⟨0, 0, 0, 0⟩ ⟨0, 0, 0, 0⟩ FMT_LUMINANCE
        [9, 9, 9, 9, 9, 9, 9, 9] 18 =
      some (FMT_LUMINANCE, [100, 100, 9, 9, 9, 9, 9, 9])) 5 (by decide)

/-- A guard-loop iteration on a value whose round trip corrupts the
retained bits recurses on the value decremented by exactly one. -/
theorem retain_loop_step {t : QuantTables} {L mask : Nat} {fuel : Nat}
    {v : Int} (h0 : 0 ≤ v) (h255 : v ≤ 255)
    (hmix : t.unquant L (t.quant L v.toNat) &&& mask ≠ v.toNat &&& mask) :
    retain_loop t L mask (fuel + 1) v = retain_loop t L mask fuel (v - 1) := by
  rw [retain_loop]
  rw [qLookup, if_pos ⟨h0, h255⟩]
  simp only
  rw [if_neg (fun hc => hmix hc.symm)]

/-- Main guard-loop lemma: when level `L` maps byte 0 to a codeword that
unquantizes with clear retained bits, the loop started at `v ∈ [0,255]`
with fuel `> n ≥ v` terminates at some `v' ∈ [0, v]` and returns
`(quant[L][v'], unquant[L][quant[L][v']])` whose unquantized value agrees
with `v'` on the retained bits. -/
theorem retain_loop_terminates {t : QuantTables} {L mask : Nat}
    (h0 : t.unquant L (t.quant L 0) &&& mask = 0) :
    ∀ (n : Nat) (v : Int) (fuel : Nat), v.toNat ≤ n → 0 ≤ v → v ≤ 255 →
      n + 1 ≤ fuel →
    ∃ v' : Int, 0 ≤ v' ∧ v' ≤ v ∧
      retain_loop t L mask fuel v =
        some (t.quant L v'.toNat, t.unquant L (t.quant L v'.toNat)) ∧
      t.unquant L (t.quant L v'.toNat) &&& mask = v'.toNat &&& mask := by
  intro n
  induction n with
  | zero =>
    intro v fuel hvn hv0 hv255 hfuel
    have hv : v = 0 := by omega
    subst hv
    obtain ⟨fuel, rfl⟩ : ∃ m, fuel = m + 1 := ⟨fuel - 1, by omega⟩
    refine ⟨0, le_refl 0, le_refl 0, ?_, ?_⟩
    · unfold retain_loop
      rw [qLookup, if_pos ⟨le_refl 0, by omega⟩]
      simp only [Int.toNat_zero]
      rw [if_pos (by rw [h0, Nat.zero_and])]
    · rw [Int.toNat_zero, h0, Nat.zero_and]
  | succ n ih =>
    intro v fuel hvn hv0 hv255 hfuel
    obtain ⟨fuel, rfl⟩ : ∃ m, fuel = m + 1 := ⟨fuel - 1, by omega⟩
    by_cases hmix : t.unquant L (t.quant L v.toNat) &&& mask = v.toNat &&& mask
    · refine ⟨v, hv0, le_refl v, ?_, hmix⟩
      unfold retain_loop
      rw [qLookup, if_pos ⟨hv0, hv255⟩]
      simp only
      rw [if_pos hmix.symm]
    · rcases Decidable.em (v = 0) with rfl | hvne
      · exact absurd (by rw [Int.toNat_zero, h0, Nat.zero_and]) hmix
      · rw [retain_loop_step hv0 hv255 hmix]
        obtain ⟨v', hv'0, hv'le, heq, hbits⟩ :=
          ih (v - 1) fuel (by omega) (by omega) (by omega) (by omega)
        exact ⟨v', hv'0, by omega, heq, hbits⟩

/-- C6: for every level `L` and starting byte `v ∈ [0,255]`, the
retain-top-two-bits and retain-top-four-bits guard loops terminate; on any
iteration whose quant/unquant round trip changes a retained bit (in either
direction) the working value is decremented by exactly one, so the working
value is monotonically non-increasing (`0 ≤ v' ≤ v`), and the loop exits
with the pair `(q, u) = (quant[L][v'], unquant[L][q])` where
`u & MASK = v' & MASK` for the final working value `v'`.  The hypotheses
`h2`/`h4` are the spec's table property that the round trip of byte 0
leaves the retained top bits clear ("reaching 0 trivially satisfies any
top-bit mask"). -/
theorem retain_top_bits_guards_terminate {t : QuantTables} {L : Nat}
    {v : Int} (hv0 : 0 ≤ v) (hv255 : v ≤ 255)
    (h2 : t.unquant L (t.quant L 0) &&& 0xC0 = 0)
    (h4 : t.unquant L (t.quant L 0) &&& 0xF0 = 0) :
    ((∀ fuel (w : Int), 0 ≤ w → w ≤ 255 →
        t.unquant L (t.quant L w.toNat) &&& 0xC0 ≠ w.toNat &&& 0xC0 →
        retain_loop t L 0xC0 (fuel + 1) w = retain_loop t L 0xC0 fuel (w - 1)) ∧
      ∃ v' : Int, 0 ≤ v' ∧ v' ≤ v ∧
        quantize_and_unquantize_retain_top_two_bits t L v =
          some (t.quant L v'.toNat, t.unquant L (t.quant L v'.toNat)) ∧
        t.unquant L (t.quant L v'.toNat) &&& 0xC0 = v'.toNat &&& 0xC0) ∧
    ((∀ fuel (w : Int), 0 ≤ w → w ≤ 255 →
        t.unquant L (t.quant L w.toNat) &&& 0xF0 ≠ w.toNat &&& 0xF0 →
        retain_loop t L 0xF0 (fuel + 1) w = retain_loop t L 0xF0 fuel (w - 1)) ∧
      ∃ v' : Int, 0 ≤ v' ∧ v' ≤ v ∧
        quantize_and_unquantize_retain_top_four_bits t L v =
          some (t.quant L v'.toNat, t.unquant L (t.quant L v'.toNat)) ∧
        t.unquant L (t.quant L v'.toNat) &&& 0xF0 = v'.toNat &&& 0xF0) := by
  constructor
  · constructor
    · intro fuel w hw0 hw255 hmix
      exact retain_loop_step hw0 hw255 hmix
    · exact retain_loop_terminates h2 255 v 300 (by omega) hv0 hv255 (by omega)
  · constructor
    · intro fuel w hw0 hw255 hmix
      exact retain_loop_step hw0 hw255 hmix
    · exact retain_loop_terminates h4 255 v 300 (by omega) hv0 hv255 (by omega)

/-- Witness for C6 on the identity tables at `v = 200`. -/
theorem retain_top_bits_guards_terminate_witness :
    (200 : Int).toNat ≤ 255 ∧
    ((∀ fuel (w : Int), 0 ≤ w → w ≤ 255 →
        idTables.unquant 18 (idTables.quant 18 w.toNat) &&& 0xC0 ≠
          w.toNat &&& 0xC0 →
        retain_loop idTables 18 0xC0 (fuel + 1) w =
          retain_loop idTables 18 0xC0 fuel (w - 1)) ∧
      ∃ v' : Int, 0 ≤ v' ∧ v' ≤ 200 ∧
        quantize_and_unquantize_retain_top_two_bits idTables 18 200 =
          some (idTables.quant 18 v'.toNat,
            idTables.unquant 18 (idTables.quant 18 v'.toNat)) ∧
        idTables.unquant 18 (idTables.quant 18 v'.toNat) &&& 0xC0 =
          v'.toNat &&& 0xC0) ∧
    ((∀ fuel (w : Int), 0 ≤ w → w ≤ 255 →
        idTables.unquant 18 (idTables.quant 18 w.toNat) &&& 0xF0 ≠
          w.toNat &&& 0xF0 →
        retain_loop idTables 18 0xF0 (fuel + 1) w =
          retain_loop idTables 18 0xF0 fuel (w - 1)) ∧
      ∃ v' : Int, 0 ≤ v' ∧ v' ≤ 200 ∧
        quantize_and_unquantize_retain_top_four_bits idTables 18 200 =
          some (idTables.quant 18 v'.toNat,
            idTables.unquant 18 (idTables.quant 18 v'.toNat)) ∧
        idTables.unquant 18 (idTables.quant 18 v'.toNat) &&& 0xF0 =
          v'.toNat &&& 0xF0) :=
  ⟨by decide,
    retain_top_bits_guards_terminate (by decide) (by decide) (by decide)
      (by decide)⟩

/-- C10: the guard loops index the quantization table directly with the
decremented working value and have no lower-bound clamp; under the
additional hypothesis that `unquant[L][quant[L][0]]` has its retained top
bits clear, the loop started at `v ∈ [0,255]` returns a result with fuel
`v + 1` — so it performs at most `v + 1` iterations and every table access
(each guarded by `qLookup`, whose failure would propagate as `none`) uses
an index within `[0,255]`. -/
theorem retain_loop_fuel_bound {t : QuantTables} {L mask : Nat} {v : Int}
    (hv0 : 0 ≤ v) (hv255 : v ≤ 255)
    (h0 : t.unquant L (t.quant L 0) &&& mask = 0) :
    ∃ v' : Int, 0 ≤ v' ∧ v' ≤ v ∧
      retain_loop t L mask (v.toNat + 1) v =
        some (t.quant L v'.toNat, t.unquant L (t.quant L v'.toNat)) ∧
      t.unquant L (t.quant L v'.toNat) &&& mask = v'.toNat &&& mask :=
  retain_loop_terminates h0 v.toNat v (v.toNat + 1) (le_refl _) hv0 hv255
    (le_refl _)

/-- Witness for C10 on the identity tables, mask `0xF0`, `v = 200`. -/
theorem retain_loop_fuel_bound_witness :
    ∃ v' : Int, 0 ≤ v' ∧ v' ≤ 200 ∧
      retain_loop idTables 18 0xF0 ((200 : Int).toNat + 1) 200 =
        some (idTables.quant 18 v'.toNat,
          idTables.unquant 18 (idTables.quant 18 v'.toNat)) ∧
      idTables.unquant 18 (idTables.quant 18 v'.toNat) &&& 0xF0 =
        v'.toNat &&& 0xF0 :=
  retain_loop_fuel_bound (by decide) (by decide) (by decide)

theorem rfloor_eq_floor (q : ℚ) : rfloor q = ⌊q⌋ := by
  rw [Rat.floor_def, rfloor, Int.fdiv_eq_ediv _ (by exact_mod_cast q.den_pos.le)]

theorem clamp255f_mem (x : ℚ) : 0 ≤ clamp255f x ∧ clamp255f x ≤ 255 := by
  unfold clamp255f
  constructor
  · exact le_min (le_max_right x 0) (by norm_num)
  · exact min_le_right _ _

theorem cqt_lookup_nonpos {t : QuantTables} {L : Nat} {v : Int} (h : v ≤ 0) :
    cqt_lookup t L v = t.quant L 0 := by
  unfold cqt_lookup
  rw [max_eq_right h, min_eq_left (by omega)]
  rfl

theorem cqt_lookup_ge255 {t : QuantTables} {L : Nat} {v : Int}
    (h : 255 ≤ v) : cqt_lookup t L v = t.quant L 255 := by
  unfold cqt_lookup
  rw [max_eq_left (by omega), min_eq_right h]
  rfl

theorem bget_set_lt {l : List Int} {i : Nat} (h : i < l.length) (v : Int) :
    bget (l.set i v) i = v := by
  rw [bget_set_eq, if_pos]
  rw [List.getElem?_eq_getElem h]
  rfl

/-- Slot contents of the six-slot write chain used by the RGB encoders. -/
theorem bget_set6 {l : List Int} (h : 6 ≤ l.length) (a b c d e f : Int) :
    bget ((((((l.set 0 a).set 1 b).set 2 c).set 3 d).set 4 e).set 5 f) 0 = a ∧
    bget ((((((l.set 0 a).set 1 b).set 2 c).set 3 d).set 4 e).set 5 f) 1 = b ∧
    bget ((((((l.set 0 a).set 1 b).set 2 c).set 3 d).set 4 e).set 5 f) 2 = c ∧
    bget ((((((l.set 0 a).set 1 b).set 2 c).set 3 d).set 4 e).set 5 f) 3 = d ∧
    bget ((((((l.set 0 a).set 1 b).set 2 c).set 3 d).set 4 e).set 5 f) 4 = e ∧
    bget ((((((l.set 0 a).set 1 b).set 2 c).set 3 d).set 4 e).set 5 f) 5 =
      f := by
  have len : ∀ (m : List Int) (i : Nat) (v : Int), (m.set i v).length =
      m.length := fun m i v => List.length_set m i v
  refine ⟨?_, ?_, ?_, ?_, ?_, ?_⟩
  · rw [bget_set_ne _ _ _ _ (by omega), bget_set_ne _ _ _ _ (by omega),
      bget_set_ne _ _ _ _ (by omega), bget_set_ne _ _ _ _ (by omega),
      bget_set_ne _ _ _ _ (by omega)]
    exact bget_set_lt (by omega) a
  · rw [bget_set_ne _ _ _ _ (by omega), bget_set_ne _ _ _ _ (by omega),
      bget_set_ne _ _ _ _ (by omega), bget_set_ne _ _ _ _ (by omega)]
    exact bget_set_lt (by simp only [len]; omega) b
  · rw [bget_set_ne _ _ _ _ (by omega), bget_set_ne _ _ _ _ (by omega),
      bget_set_ne _ _ _ _ (by omega)]
    exact bget_set_lt (by simp only [len]; omega) c
  · rw [bget_set_ne _ _ _ _ (by omega), bget_set_ne _ _ _ _ (by omega)]
    exact bget_set_lt (by simp only [len]; omega) d
  · rw [bget_set_ne _ _ _ _ (by omega)]
    exact bget_set_lt (by simp only [len]; omega) e
  · exact bget_set_lt (by simp only [len]; omega) f

/-- The `quantize_rgb` retry loop terminates: with biases driven far
enough apart, the low endpoint clamps to byte 0 and the high endpoint to
byte 255, and the exit test then holds by the table's monotonicity at the
extremes. -/
theorem qrgb_loop_terminates {t : QuantTables} {L : Nat}
    {r0 g0 b0 r1 g1 b1 : ℚ} {buf : List Int}
    (hall : ∀ x ∈ [r0, g0, b0, r1, g1, b1], 0 ≤ x ∧ x ≤ 255)
    (htbl : t.unquant L (t.quant L 0) ≤ t.unquant L (t.quant L 255)) :
    ∀ (n fuel : Nat) (a0 a1 : ℚ), a0 - n * mkRat 1 5 ≤ -255 →
      255 ≤ a1 + n * mkRat 1 5 → n + 1 ≤ fuel →
      ∃ out, quantize_rgb_loop t L r0 g0 b0 r1 g1 b1 fuel a0 a1 buf =
        some out := by
  have h5 : (mkRat 1 5 : ℚ) = 1/5 := by norm_num [mkRat]
  intro n
  induction n with
  | zero =>
    intro fuel a0 a1 ha0 ha1 hfuel
    simp only [Nat.cast_zero, zero_mul, sub_zero, add_zero] at ha0 ha1
    obtain ⟨fuel, rfl⟩ : ∃ m, fuel = m + 1 := ⟨fuel - 1, by omega⟩
    unfold quantize_rgb_loop
    dsimp only
    have hle0 : ∀ x ∈ [r0, g0, b0], flt2int_rd (x + a0) ≤ 0 := by
      intro x hx
      have hx' := hall x (by simp at hx ⊢; tauto)
      rw [flt2int_rd, rfloor_eq_floor]
      calc ⌊x + a0⌋ ≤ ⌊(0 : ℚ)⌋ := Int.floor_le_floor (by linarith [hx'.2])
        _ = 0 := Int.floor_zero
    have hge1 : ∀ x ∈ [r1, g1, b1], (255 : Int) ≤ flt2int_rd (x + a1) := by
      intro x hx
      have hx' := hall x (by simp at hx ⊢; tauto)
      rw [flt2int_rd, rfloor_eq_floor]
      refine Int.le_floor.mpr ?_
      push_cast
      linarith [hx'.1]
    rw [cqt_lookup_nonpos (hle0 r0 (by simp)),
      cqt_lookup_nonpos (hle0 g0 (by simp)),
      cqt_lookup_nonpos (hle0 b0 (by simp)),
      cqt_lookup_ge255 (hge1 r1 (by simp)),
      cqt_lookup_ge255 (hge1 g1 (by simp)),
      cqt_lookup_ge255 (hge1 b1 (by simp)), if_neg (by omega)]
    exact ⟨_, rfl⟩
  | succ n ih =>
    intro fuel a0 a1 ha0 ha1 hfuel
    obtain ⟨fuel, rfl⟩ : ∃ m, fuel = m + 1 := ⟨fuel - 1, by omega⟩
    rw [quantize_rgb_loop]
    split
    · refine ih fuel (a0 - mkRat 1 5) (a1 + mkRat 1 5) ?_ ?_ (by omega)
      · rw [h5] at ha0 ⊢
        push_cast at ha0 ⊢
        linarith
      · rw [h5] at ha1 ⊢
        push_cast at ha1 ⊢
        linarith
    · exact ⟨_, rfl⟩

/-- Whenever the `quantize_rgb` retry loop exits, the emitted vector
satisfies the decoded order invariant. -/
theorem qrgb_loop_ordered {t : QuantTables} {L : Nat}
    {r0 g0 b0 r1 g1 b1 : ℚ} {buf : List Int} (hlen : 6 ≤ buf.length) :
    ∀ {fuel : Nat} {a0 a1 : ℚ} {out : List Int},
      quantize_rgb_loop t L r0 g0 b0 r1 g1 b1 fuel a0 a1 buf = some out →
      decSumLe t L out := by
  intro fuel
  induction fuel with
  | zero =>
    intro a0 a1 out h
    exact absurd h (by simp [quantize_rgb_loop])
  | succ n ih =>
    intro a0 a1 out h
    rw [quantize_rgb_loop] at h
    split at h
    · exact ih h
    · obtain rfl := Option.some.inj h
      rename_i hexit
      obtain ⟨e0, e1, e2, e3, e4, e5⟩ := bget_set6 hlen
        ((cqt_lookup t L (flt2int_rd (r0 + a0)) : Int))
        ((cqt_lookup t L (flt2int_rd (r1 + a1)) : Int))
        ((cqt_lookup t L (flt2int_rd (g0 + a0)) : Int))
        ((cqt_lookup t L (flt2int_rd (g1 + a1)) : Int))
        ((cqt_lookup t L (flt2int_rd (b0 + a0)) : Int))
        ((cqt_lookup t L (flt2int_rd (b1 + a1)) : Int))
      unfold decSumLe
      rw [e0, e1, e2, e3, e4, e5]
      simp only [Int.toNat_natCast]
      omega

/-- C3: for every quantization level and all inputs, the retry loop of
`quantize_rgb` terminates (the function is infallible), and on exit the
emitted vector satisfies the order invariant: the unquantized sum of the
endpoint-0 channels (slots 0, 2, 4) does not exceed the unquantized sum of
the endpoint-1 channels (slots 1, 3, 5).  The hypothesis `htbl` is the
spec's table property that the unquantized image of byte 0 does not exceed
that of byte 255 (nearest-representable tables are monotone at the
extremes). -/
theorem quantize_rgb_infallible_and_ordered (t : QuantTables) (L : Nat)
    (c0 c1 : Color) (buf : List Int) (hlen : 6 ≤ buf.length)
    (htbl : t.unquant L (t.quant L 0) ≤ t.unquant L (t.quant L 255)) :
    ∃ out, quantize_rgb t L c0 c1 buf = some out ∧ decSumLe t L out := by
  unfold quantize_rgb
  obtain ⟨out, hout⟩ :=
    @qrgb_loop_terminates t L (clamp255f (c0.r * scale257))
      (clamp255f (c0.g * scale257)) (clamp255f (c0.b * scale257))
      (clamp255f (c1.r * scale257)) (clamp255f (c1.g * scale257))
      (clamp255f (c1.b * scale257)) buf
      (by
        intro x hx
        simp only [List.mem_cons, List.not_mem_nil, or_false] at hx
        rcases hx with rfl | rfl | rfl | rfl | rfl | rfl <;>
          exact clamp255f_mem _)
      htbl 1278 1300 (mkRat 1 2) (mkRat 1 2)
      (by norm_num [mkRat]) (by norm_num [mkRat]) (by omega)
  exact ⟨out, hout, qrgb_loop_ordered hlen hout⟩

/-- Witness for C3 on the identity tables. -/
theorem quantize_rgb_infallible_and_ordered_witness :
    ∃ out, quantize_rgb idTables 18 ⟨1000, 2000, 4000, 0⟩
      ⟨500, 1000, 2000, 0⟩ [9, 9, 9, 9, 9, 9, 9, 9] = some out ∧
      decSumLe idTables 18 out :=
  quantize_rgb_infallible_and_ordered idTables 18 ⟨1000, 2000, 4000, 0⟩
    ⟨500, 1000, 2000, 0⟩ [9, 9, 9, 9, 9, 9, 9, 9] (by decide) (by decide)

theorem delta_chan_off {t : QuantTables} {L : Nat} {x0 x1 : Int}
    {ch : DeltaChan} (h : delta_chan t L x0 x1 = some (some ch)) :
    ch.off = sext7 (unqI t L ch.e1) := by
  obtain ⟨che0, che1, chbase, choff⟩ := ch
  unfold delta_chan at h
  simp only [Option.bind_eq_bind, Option.bind_eq_some, Option.pure_def,
    Option.some.injEq] at h
  obtain ⟨e0, he0, h⟩ := h
  split at h
  · exact Option.noConfusion (Option.some.inj h)
  · simp only [Option.bind_eq_bind, Option.bind_eq_some, Option.pure_def,
      Option.some.injEq] at h
    obtain ⟨e1, he1, h⟩ := h
    split at h
    · exact Option.noConfusion (Option.some.inj h)
    · simp only [Option.pure_def, Option.some.injEq, DeltaChan.mk.injEq] at h
      obtain ⟨h1, h2, h3, h4⟩ := h
      rw [← h4, ← h2]

/-- C4: whenever `try_quantize_rgb_delta` succeeds, the three decoded
(sign-extended, post-round-trip) channel offsets of the emitted vector
(slots 1, 3, 5) sum to `≥ 0`; whenever
`try_quantize_rgb_delta_blue_contract` succeeds, the same decoded sum is
`< 0`.  Each function returns failure instead of emitting a vector
violating its rule (the sum tests are the final guards before the
writes). -/
theorem rgb_delta_sum_rules {t : QuantTables} {L : Nat} {c0 c1 : Color}
    {buf buf' : List Int} (hlen : 6 ≤ buf.length) :
    (try_quantize_rgb_delta t L c0 c1 buf = some (true, buf') →
      0 ≤ decoded_offset t L (bget buf' 1) + decoded_offset t L (bget buf' 3) +
        decoded_offset t L (bget buf' 5)) ∧
    (try_quantize_rgb_delta_blue_contract t L c0 c1 buf = some (true, buf') →
      decoded_offset t L (bget buf' 1) + decoded_offset t L (bget buf' 3) +
        decoded_offset t L (bget buf' 5) < 0) := by
  constructor
  · intro h
    unfold try_quantize_rgb_delta at h
    simp only [Option.bind_eq_bind, Option.bind_eq_some] at h
    obtain ⟨cr, hcr, cg, hcg, cb, hcb, h⟩ := h
    rcases cr with _ | cr <;> rcases cg with _ | cg <;> rcases cb with _ | cb <;>
      simp only [Option.pure_def, Option.some.injEq, Prod.mk.injEq,
        Bool.false_eq_true, false_and] at h <;> try exact h.elim
    split at h
    · simp only [Option.pure_def, Option.some.injEq, Prod.mk.injEq,
        Bool.false_eq_true, false_and] at h
      try exact h.elim
    · split at h
      · simp only [Option.pure_def, Option.some.injEq, Prod.mk.injEq,
          Bool.false_eq_true, false_and] at h
        try exact h.elim
      · simp only [Option.pure_def, Option.some.injEq, Prod.mk.injEq,
          true_and] at h
        obtain rfl := h.symm
        obtain ⟨e0, e1, e2, e3, e4, e5⟩ := bget_set6 hlen
          ((cr.e0 : Int)) ((cr.e1 : Int)) ((cg.e0 : Int)) ((cg.e1 : Int))
          ((cb.e0 : Int)) ((cb.e1 : Int))
        rw [e1, e3, e5]
        unfold decoded_offset
        simp only [Int.toNat_natCast]
        rw [← delta_chan_off hcr, ← delta_chan_off hcg, ← delta_chan_off hcb]
        omega
  · intro h
    unfold try_quantize_rgb_delta_blue_contract at h
    dsimp only at h
    split at h
    · simp only [Option.some.injEq, Prod.mk.injEq, Bool.false_eq_true,
        false_and] at h
      try exact h.elim
    · simp only [Option.bind_eq_bind, Option.bind_eq_some] at h
      obtain ⟨cr, hcr, cg, hcg, cb, hcb, h⟩ := h
      rcases cr with _ | cr <;> rcases cg with _ | cg <;>
        rcases cb with _ | cb <;>
        simp only [Option.pure_def, Option.some.injEq, Prod.mk.injEq,
          Bool.false_eq_true, false_and] at h <;> try exact h.elim
      split at h
      · simp only [Option.pure_def, Option.some.injEq, Prod.mk.injEq,
          Bool.false_eq_true, false_and] at h
        try exact h.elim
      · split at h
        · simp only [Option.pure_def, Option.some.injEq, Prod.mk.injEq,
            Bool.false_eq_true, false_and] at h
          try exact h.elim
        · simp only [Option.pure_def, Option.some.injEq, Prod.mk.injEq,
            true_and] at h
          obtain rfl := h.symm
          obtain ⟨e0, e1, e2, e3, e4, e5⟩ := bget_set6 hlen
            ((cr.e0 : Int)) ((cr.e1 : Int)) ((cg.e0 : Int)) ((cg.e1 : Int))
            ((cb.e0 : Int)) ((cb.e1 : Int))
          rw [e1, e3, e5]
          unfold decoded_offset
          simp only [Int.toNat_natCast]
          rw [← delta_chan_off hcr, ← delta_chan_off hcg, ← delta_chan_off hcb]
          omega

/-- Witness for C4: a succeeding plain delta attempt (all-zero endpoints)
and a succeeding blue-contracted delta attempt (gray 9 and gray 10
endpoints, decoded offsets `-2` per channel). -/
theorem rgb_delta_sum_rules_witness :
    (0 ≤ decoded_offset idTables 18 (bget [0, 0, 0, 0, 0, 0, 9, 9] 1) +
      decoded_offset idTables 18 (bget [0, 0, 0, 0, 0, 0, 9, 9] 3) +
      decoded_offset idTables 18 (bget [0, 0, 0, 0, 0, 0, 9, 9] 5)) ∧
    (decoded_offset idTables 18 (bget [20, 126, 20, 126, 20, 126, 9, 9] 1) +
      decoded_offset idTables 18 (bget [20, 126, 20, 126, 20, 126, 9, 9] 3) +
      decoded_offset idTables 18 (bget [20, 126, 20, 126, 20, 126, 9, 9] 5) <
      0) :=
  ⟨(rgb_delta_sum_rules (by decide)).1
      (by decide :
        try_quantize_rgb_delta idTables 18 ⟨0, 0, 0, 0⟩ ⟨0, 0, 0, 0⟩
          [9, 9, 9, 9, 9, 9, 9, 9] = some (true, [0, 0, 0, 0, 0, 0, 9, 9])),
    (rgb_delta_sum_rules (by decide)).2
      (by decide :
        try_quantize_rgb_delta_blue_contract idTables 18
          ⟨2313, 2313, 2313, 0⟩ ⟨2570, 2570, 2570, 0⟩
          [9, 9, 9, 9, 9, 9, 9, 9] =
        some (true, [20, 126, 20, 126, 20, 126, 9, 9]))⟩

theorem fail_try_quantize_rgb_delta {t : QuantTables} {L : Nat}
    {c0 c1 : Color} {buf b' : List Int}
    (h : try_quantize_rgb_delta t L c0 c1 buf = some (false, b')) :
    b' = buf := by
  unfold try_quantize_rgb_delta at h
  simp only [Option.bind_eq_bind, Option.bind_eq_some] at h
  obtain ⟨cr, hcr, cg, hcg, cb, hcb, h⟩ := h
  rcases cr with _ | cr <;> rcases cg with _ | cg <;> rcases cb with _ | cb <;>
    simp only [Option.pure_def, Option.some.injEq, Prod.mk.injEq] at h <;>
    try exact h.2.symm
  split at h
  · simp only [Option.pure_def, Option.some.injEq, Prod.mk.injEq] at h
    exact h.2.symm
  · split at h
    · simp only [Option.pure_def, Option.some.injEq, Prod.mk.injEq] at h
      exact h.2.symm
    · simp only [Option.pure_def, Option.some.injEq, Prod.mk.injEq,
        Bool.true_eq_false, false_and] at h

theorem fail_try_quantize_rgb_delta_blue_contract {t : QuantTables} {L : Nat}
    {c0 c1 : Color} {buf b' : List Int}
    (h : try_quantize_rgb_delta_blue_contract t L c0 c1 buf =
      some (false, b')) : b' = buf := by
  unfold try_quantize_rgb_delta_blue_contract at h
  dsimp only at h
  split at h
  · simp only [Option.some.injEq, Prod.mk.injEq] at h
    exact h.2.symm
  · simp only [Option.bind_eq_bind, Option.bind_eq_some] at h
    obtain ⟨cr, hcr, cg, hcg, cb, hcb, h⟩ := h
    rcases cr with _ | cr <;> rcases cg with _ | cg <;> rcases cb with _ | cb <;>
      simp only [Option.pure_def, Option.some.injEq, Prod.mk.injEq] at h <;>
      try exact h.2.symm
    split at h
    · simp only [Option.pure_def, Option.some.injEq, Prod.mk.injEq] at h
      exact h.2.symm
    · split at h
      · simp only [Option.pure_def, Option.some.injEq, Prod.mk.injEq] at h
        exact h.2.symm
      · simp only [Option.pure_def, Option.some.injEq, Prod.mk.injEq,
          Bool.true_eq_false, false_and] at h

theorem fail_try_quantize_alpha_delta {t : QuantTables} {L : Nat}
    {c0 c1 : Color} {buf b' : List Int}
    (h : try_quantize_alpha_delta t L c0 c1 buf = some (false, b')) :
    b' = buf := by
  unfold try_quantize_alpha_delta at h
  simp only [Option.bind_eq_bind, Option.bind_eq_some] at h
  obtain ⟨ca, hca, h⟩ := h
  rcases ca with _ | ca <;>
    simp only [Option.pure_def, Option.some.injEq, Prod.mk.injEq] at h <;>
    try exact h.2.symm
  split at h
  · simp only [Option.pure_def, Option.some.injEq, Prod.mk.injEq] at h
    exact h.2.symm
  · simp only [Option.pure_def, Option.some.injEq, Prod.mk.injEq,
      Bool.true_eq_false, false_and] at h

theorem fail_try_quantize_luminance_alpha_delta {t : QuantTables} {L : Nat}
    {c0 c1 : Color} {buf b' : List Int}
    (h : try_quantize_luminance_alpha_delta t L c0 c1 buf =
      some (false, b')) : b' = buf := by
  unfold try_quantize_luminance_alpha_delta at h
  simp only [Option.bind_eq_bind, Option.bind_eq_some] at h
  obtain ⟨cl, hcl, ca, hca, h⟩ := h
  rcases cl with _ | cl <;> rcases ca with _ | ca <;>
    simp only [Option.pure_def, Option.some.injEq, Prod.mk.injEq] at h <;>
    try exact h.2.symm
  split at h
  · simp only [Option.pure_def, Option.some.injEq, Prod.mk.injEq] at h
    exact h.2.symm
  · split at h
    · simp only [Option.pure_def, Option.some.injEq, Prod.mk.injEq] at h
      exact h.2.symm
    · simp only [Option.pure_def, Option.some.injEq, Prod.mk.injEq,
        Bool.true_eq_false, false_and] at h

theorem fail_try_quantize_rgb_blue_contract {t : QuantTables} {L : Nat}
    {c0 c1 : Color} {buf b' : List Int}
    (h : try_quantize_rgb_blue_contract t L c0 c1 buf = some (false, b')) :
    b' = buf := by
  unfold try_quantize_rgb_blue_contract at h
  dsimp only at h
  split at h
  · simp only [Option.some.injEq, Prod.mk.injEq] at h
    exact h.2.symm
  · simp only [Option.bind_eq_bind, Option.bind_eq_some, Option.pure_def,
      Option.some.injEq, Prod.mk.injEq] at h
    obtain ⟨q1, h1, q2, h2, q3, h3, q4, h4, q5, h5, q6, h6, h⟩ := h
    split at h
    · simp only [Option.some.injEq, Prod.mk.injEq] at h
      exact h.2.symm
    · simp only [Option.some.injEq, Prod.mk.injEq, Bool.true_eq_false,
        false_and] at h

theorem fail_hdr_lum_small_low {t : QuantTables} {L : Nat} {i0 i1 : Int}
    {buf b' : List Int}
    (h : hdr_lum_small_low t L i0 i1 buf = some (false, b')) : b' = buf := by
  unfold hdr_lum_small_low at h
  simp only [Option.bind_eq_bind, Option.bind_eq_some, Option.pure_def,
    Option.some.injEq, Prod.mk.injEq] at h
  obtain ⟨v0e, h0, h⟩ := h
  split at h
  · simp only [Option.some.injEq, Prod.mk.injEq] at h
    exact h.2.symm
  · split at h
    · simp only [Option.some.injEq, Prod.mk.injEq] at h
      exact h.2.symm
    · simp only [Option.bind_eq_bind, Option.bind_eq_some, Option.pure_def,
        Option.some.injEq, Prod.mk.injEq] at h
      obtain ⟨v1e, h1, h⟩ := h
      split at h
      · simp only [Option.some.injEq, Prod.mk.injEq] at h
        exact h.2.symm
      · simp only [Option.some.injEq, Prod.mk.injEq, Bool.true_eq_false,
          false_and] at h

theorem fail_try_quantize_hdr_luminance_small_range3 {t : QuantTables}
    {L : Nat} {c0 c1 : Color} {buf b' : List Int}
    (h : try_quantize_hdr_luminance_small_range3 t L c0 c1 buf =
      some (false, b')) : b' = buf := by
  unfold try_quantize_hdr_luminance_small_range3 at h
  dsimp only at h
  split at h
  · simp only [Option.some.injEq, Prod.mk.injEq] at h
    exact h.2.symm
  · simp only [Option.bind_eq_bind, Option.bind_eq_some, Option.pure_def,
      Option.some.injEq, Prod.mk.injEq] at h
    obtain ⟨v0e, h0, h⟩ := h
    split at h
    · exact fail_hdr_lum_small_low h
    · split at h
      · exact fail_hdr_lum_small_low h
      · simp only [Option.bind_eq_bind, Option.bind_eq_some, Option.pure_def,
          Option.some.injEq, Prod.mk.injEq] at h
        obtain ⟨v1e, h1, h⟩ := h
        split at h
        · exact fail_hdr_lum_small_low h
        · simp only [Option.some.injEq, Prod.mk.injEq, Bool.true_eq_false,
            false_and] at h

theorem alpha_slots_preserve_low {buf : List Int} {x y : Int} :
    ∀ i, i < 6 → bget ((buf.set 6 x).set 7 y) i = bget buf i := by
  intro i hi
  rw [bget_set_ne _ _ _ _ (by omega), bget_set_ne _ _ _ _ (by omega)]

/-- C7 counterexample: `try_quantize_rgba_delta` can return failure while
leaving the output buffer modified — the alpha sub-attempt succeeds and
writes slots 6 and 7 before the RGB sub-attempt fails (here the red
offset is 510, far out of the delta range). -/
theorem try_quantize_rgba_delta_failure_modifies_buffer :
    try_quantize_rgba_delta idTables 18 ⟨0, 0, 0, 0⟩ ⟨65535, 0, 0, 0⟩
      [9, 9, 9, 9, 9, 9, 9, 9] = some (false, [9, 9, 9, 9, 9, 9, 0, 0]) ∧
    ([9, 9, 9, 9, 9, 9, 0, 0] : List Int) ≠ [9, 9, 9, 9, 9, 9, 9, 9] :=
  ⟨by decide, by decide⟩

/-- C7 (amended): each elementary fallible attempt (rgb-delta,
rgb-delta-blue-contract, alpha-delta, luminance-alpha-delta,
rgb-blue-contract, hdr-luminance-small-range) leaves the output buffer
exactly as it was when it returns failure; the composite rgba attempts
(`try_quantize_rgba_delta`, `try_quantize_rgba_delta_blue_contract`,
`try_quantize_rgba_blue_contract`) may write the alpha slots 6 and 7
before failing, but leave slots 0 to 5 unchanged on failure. -/
theorem attempt_failure_buffer_effects (t : QuantTables) (L : Nat)
    (c0 c1 : Color) (buf : List Int) :
    (∀ b', try_quantize_rgb_delta t L c0 c1 buf = some (false, b') →
      b' = buf) ∧
    (∀ b', try_quantize_rgb_delta_blue_contract t L c0 c1 buf =
      some (false, b') → b' = buf) ∧
    (∀ b', try_quantize_alpha_delta t L c0 c1 buf = some (false, b') →
      b' = buf) ∧
    (∀ b', try_quantize_luminance_alpha_delta t L c0 c1 buf =
      some (false, b') → b' = buf) ∧
    (∀ b', try_quantize_rgb_blue_contract t L c0 c1 buf = some (false, b') →
      b' = buf) ∧
    (∀ b', try_quantize_hdr_luminance_small_range3 t L c0 c1 buf =
      some (false, b') → b' = buf) ∧
    (∀ b', try_quantize_rgba_delta t L c0 c1 buf = some (false, b') →
      ∀ i, i < 6 → bget b' i = bget buf i) ∧
    (∀ b', try_quantize_rgba_delta_blue_contract t L c0 c1 buf =
      some (false, b') → ∀ i, i < 6 → bget b' i = bget buf i) ∧
    (∀ b', try_quantize_rgba_blue_contract t L c0 c1 buf =
      some (false, b') → ∀ i, i < 6 → bget b' i = bget buf i) := by
  refine ⟨fun b' h => fail_try_quantize_rgb_delta h,
    fun b' h => fail_try_quantize_rgb_delta_blue_contract h,
    fun b' h => fail_try_quantize_alpha_delta h,
    fun b' h => fail_try_quantize_luminance_alpha_delta h,
    fun b' h => fail_try_quantize_rgb_blue_contract h,
    fun b' h => fail_try_quantize_hdr_luminance_small_range3 h,
    ?_, ?_, ?_⟩
  · intro b' h i hi
    unfold try_quantize_rgba_delta at h
    simp only [Option.bind_eq_bind, Option.bind_eq_some] at h
    obtain ⟨⟨aok, buf1⟩, ha, h⟩ := h
    cases aok
    · simp only [Option.pure_def, Option.some.injEq, Prod.mk.injEq] at h
      obtain ⟨_, rfl⟩ := h
      rw [fail_try_quantize_alpha_delta ha]
    · simp only [Bool.true_eq_false, if_neg (by decide : ¬true = false)] at h
      have hb1 : ∀ j, j < 6 → bget buf1 j = bget buf j := by
        intro j hj
        unfold try_quantize_alpha_delta at ha
        simp only [Option.bind_eq_bind, Option.bind_eq_some] at ha
        obtain ⟨ca, hca, ha⟩ := ha
        rcases ca with _ | ca <;>
          simp only [Option.pure_def, Option.some.injEq, Prod.mk.injEq,
            Bool.false_eq_true, false_and] at ha <;> try exact ha.elim
        split at ha
        · simp only [Option.some.injEq, Prod.mk.injEq, Bool.false_eq_true,
            false_and] at ha
        · simp only [Option.pure_def, Option.some.injEq, Prod.mk.injEq,
            true_and] at ha
          rw [← ha]
          exact alpha_slots_preserve_low j hj
      rw [fail_try_quantize_rgb_delta h]
      exact hb1 i hi
  · intro b' h i hi
    unfold try_quantize_rgba_delta_blue_contract at h
    simp only [Option.bind_eq_bind, Option.bind_eq_some] at h
    obtain ⟨⟨aok, buf1⟩, ha, h⟩ := h
    cases aok
    · simp only [Option.pure_def, Option.some.injEq, Prod.mk.injEq] at h
      obtain ⟨_, rfl⟩ := h
      rw [fail_try_quantize_alpha_delta ha]
    · simp only [Bool.true_eq_false, if_neg (by decide : ¬true = false)] at h
      have hb1 : ∀ j, j < 6 → bget buf1 j = bget buf j := by
        intro j hj
        unfold try_quantize_alpha_delta at ha
        simp only [Option.bind_eq_bind, Option.bind_eq_some] at ha
        obtain ⟨ca, hca, ha⟩ := ha
        rcases ca with _ | ca <;>
          simp only [Option.pure_def, Option.some.injEq, Prod.mk.injEq,
            Bool.false_eq_true, false_and] at ha <;> try exact ha.elim
        split at ha
        · simp only [Option.some.injEq, Prod.mk.injEq, Bool.false_eq_true,
            false_and] at ha
        · simp only [Option.pure_def, Option.some.injEq, Prod.mk.injEq,
            true_and] at ha
          rw [← ha]
          exact alpha_slots_preserve_low j hj
      rw [fail_try_quantize_rgb_delta_blue_contract h]
      exact hb1 i hi
  · intro b' h i hi
    unfold try_quantize_rgba_blue_contract at h
    simp only [Option.bind_eq_bind, Option.bind_eq_some] at h
    obtain ⟨a0, ha0, a1, ha1, h⟩ := h
    rw [fail_try_quantize_rgb_blue_contract h]
    rw [bget_set_ne _ _ _ _ (by omega), bget_set_ne _ _ _ _ (by omega)]

/-- Witness for the amended C7: the rgb-delta attempt fails on a 510-wide
red offset and leaves the buffer untouched, and the composite rgba-delta
attempt leaves slot 0 unchanged when it fails. -/
theorem attempt_failure_buffer_effects_witness :
    ([9, 9, 9, 9, 9, 9, 9, 9] : List Int) = [9, 9, 9, 9, 9, 9, 9, 9] ∧
    bget [9, 9, 9, 9, 9, 9, 0, 0] 0 = bget [9, 9, 9, 9, 9, 9, 9, 9] 0 :=
  ⟨(attempt_failure_buffer_effects idTables 18 ⟨0, 0, 0, 0⟩ ⟨65535, 0, 0, 0⟩
      [9, 9, 9, 9, 9, 9, 9, 9]).1 [9, 9, 9, 9, 9, 9, 9, 9]
      (by decide),
    (attempt_failure_buffer_effects idTables 18 ⟨0, 0, 0, 0⟩ ⟨65535, 0, 0, 0⟩
      [9, 9, 9, 9, 9, 9, 9, 9]).2.2.2.2.2.2.1 [9, 9, 9, 9, 9, 9, 0, 0]
      (by decide) 0 (by decide)⟩

theorem qLookup_eq {t : QuantTables} {L : Nat} {v : Int} {q : Nat}
    (h : qLookup t L v = some q) : q = t.quant L v.toNat := by
  unfold qLookup at h
  split at h
  · exact (Option.some.inj h).symm
  · exact absurd h (by simp)

/-- C8 counterexample: at submode `i = 2` with `ialpha0 = 512`,
`ialpha1 = 0` the difference value is exactly `-(32 >> 2) = -8`, so
`|diffval| < 32 >> i` fails, yet the code accepts the submode (its test
is `diffval < -cutoff || diffval >= cutoff`, which admits
`diffval = -cutoff`). -/
theorem hdr_alpha3_submode_accepts_minus_cutoff :
    hdr_alpha3_submode idTables 18 2 512 0 = some (some (8, 136)) ∧
    alpha3_diffval idTables 18 2 512 0 = -(ishr 32 2) ∧
    ¬ |alpha3_diffval idTables 18 2 512 0| < ishr 32 2 :=
  ⟨by decide, by decide, by decide⟩

/-- C8 (amended): whenever a delta submode of `quantize_hdr_alpha3`
succeeds, the difference value lies in the half-open interval
`[-(32 >> i), 32 >> i)` — at most the strict bound on the positive side,
but inclusive of `-(32 >> i)` on the negative side. -/
theorem hdr_alpha3_submode_diff_range {t : QuantTables} {L i : Nat}
    {ia0 ia1 : Int} {r : Nat × Nat}
    (h : hdr_alpha3_submode t L i ia0 ia1 = some (some r)) :
    -(ishr 32 i) ≤ alpha3_diffval t L i ia0 ia1 ∧
    alpha3_diffval t L i ia0 ia1 < ishr 32 i := by
  unfold hdr_alpha3_submode at h
  simp only [Option.bind_eq_bind, Option.bind_eq_some, Option.pure_def,
    Option.some.injEq] at h
  obtain ⟨v6e, h6, h⟩ := h
  split at h
  · exact Option.noConfusion (Option.some.inj h)
  · split at h
    · exact Option.noConfusion (Option.some.inj h)
    · rename_i hd
      rw [not_or] at hd
      obtain ⟨hd1, hd2⟩ := hd
      unfold alpha3_diffval
      dsimp only
      rw [← qLookup_eq h6]
      omega

/-- Witness for the amended C8: the accepted submode at `i = 2`,
`ialpha0 = 512`, `ialpha1 = 0` has its difference value inside
`[-(32 >> 2), 32 >> 2)`. -/
theorem hdr_alpha3_submode_diff_range_witness :
    -(ishr 32 2) ≤ alpha3_diffval idTables 18 2 512 0 ∧
    alpha3_diffval idTables 18 2 512 0 < ishr 32 2 :=
  hdr_alpha3_submode_diff_range
    (by decide :
      hdr_alpha3_submode idTables 18 2 512 0 = some (some (8, 136)))

theorem clampNeg_id {c : Color} (h : NNeg c) : clampNeg c = c := by
  obtain ⟨r, g, b, a⟩ := c
  obtain ⟨h1, h2, h3, h4⟩ := h
  unfold clampNeg
  simp only [Color.mk.injEq]
  exact ⟨max_eq_left h1, max_eq_left h2, max_eq_left h3, max_eq_left h4⟩

/-- Modelled from the spec: the candidate order for a requested `RGB`
format at `L ≤ 18` — delta-blue-contract, then delta, then blue-contract,
then plain — each candidate attempted on the incoming buffer, stopping at
the first success, with tag `FMT_RGB_DELTA` for the delta candidates and
`FMT_RGB` otherwise. -/
def rgb_dispatch_spec (t : QuantTables) (L : Nat) (c0 c1 : Color)
    (buf : List Int) : Option (Fmt × List Int) := do
  let r1 ← try_quantize_rgb_delta_blue_contract t L c0 c1 buf
  if r1.1 then
    pure (FMT_RGB_DELTA, r1.2)
  else
    let r2 ← try_quantize_rgb_delta t L c0 c1 buf
    if r2.1 then
      pure (FMT_RGB_DELTA, r2.2)
    else
      let r3 ← try_quantize_rgb_blue_contract t L c0 c1 buf
      if r3.1 then
        pure (FMT_RGB, r3.2)
      else
        let buf4 ← quantize_rgb t L c0 c1 buf
        pure (FMT_RGB, buf4)

/-- C1: for `L ≤ 18` and non-negative input colors, `pack_color_endpoints`
with requested format `FMT_RGB` performs exactly the spec's candidate
chain — delta-blue-contract, delta, blue-contract, plain, first success
wins — and returns `FMT_RGB_DELTA` exactly when one of the two delta
attempts succeeded, `FMT_RGB` otherwise. -/
theorem pack_rgb_first_success_order (t : QuantTables) (L : Nat)
    (c0 c1 rgbs rgbo : Color) (buf : List Int)
    (hL : L ≤ 18) (hnn0 : NNeg c0) (hnn1 : NNeg c1) :
    pack_color_endpoints t c0 c1 rgbs rgbo FMT_RGB buf L =
      rgb_dispatch_spec t L c0 c1 buf ∧
    ∀ f out, pack_color_endpoints t c0 c1 rgbs rgbo FMT_RGB buf L =
        some (f, out) →
      (f = FMT_RGB_DELTA ↔
        (∃ b, try_quantize_rgb_delta_blue_contract t L c0 c1 buf =
          some (true, b)) ∨
        (∃ b, try_quantize_rgb_delta t L c0 c1 buf = some (true, b))) ∧
      (f = FMT_RGB_DELTA ∨ f = FMT_RGB) := by
  have e0 : clampNeg c0 = c0 := clampNeg_id hnn0
  have e1 : clampNeg c1 = c1 := clampNeg_id hnn1
  have key : pack_color_endpoints t c0 c1 rgbs rgbo FMT_RGB buf L =
      rgb_dispatch_spec t L c0 c1 buf := by
    unfold pack_color_endpoints
    dsimp only
    rw [e0, e1]
    unfold pack_fmt_rgb rgb_dispatch_spec
    rw [if_pos hL]
    cases hA : try_quantize_rgb_delta_blue_contract t L c0 c1 buf with
    | none => simp only [Option.bind_eq_bind, Option.none_bind]
    | some r1 =>
      obtain ⟨ok1, b1⟩ := r1
      cases ok1 with
      | true => simp only [Option.bind_eq_bind, Option.some_bind, reduceIte]
      | false =>
        simp only [Option.bind_eq_bind, Option.some_bind, reduceIte]
        rw [fail_try_quantize_rgb_delta_blue_contract hA]
        cases hB : try_quantize_rgb_delta t L c0 c1 buf with
        | none => simp only [Option.bind_eq_bind, Option.none_bind]
        | some r2 =>
          obtain ⟨ok2, b2⟩ := r2
          cases ok2 with
          | true =>
            simp only [Option.bind_eq_bind, Option.some_bind, reduceIte]
          | false =>
            simp only [Option.bind_eq_bind, Option.some_bind, reduceIte]
            rw [fail_try_quantize_rgb_delta hB]
            unfold pack_fmt_rgb_rest
            cases hC : try_quantize_rgb_blue_contract t L c0 c1 buf with
            | none => simp only [Option.bind_eq_bind, Option.none_bind]
            | some r3 =>
              obtain ⟨ok3, b3⟩ := r3
              cases ok3 with
              | true =>
                simp only [Option.bind_eq_bind, Option.some_bind, reduceIte]
              | false =>
                simp only [Option.bind_eq_bind, Option.some_bind, reduceIte]
                rw [fail_try_quantize_rgb_blue_contract hC]
  refine ⟨key, fun f out h => ?_⟩
  rw [key] at h
  unfold rgb_dispatch_spec at h
  simp only [Option.bind_eq_bind, Option.bind_eq_some, Option.pure_def,
    Option.some.injEq] at h
  obtain ⟨⟨ok1, b1⟩, hA, h⟩ := h
  cases ok1 with
  | true =>
    simp only [eq_self_iff_true, if_true, Option.some.injEq,
      Prod.mk.injEq] at h
    obtain ⟨rfl, -⟩ := h
    exact ⟨⟨fun _ => Or.inl ⟨b1, hA⟩, fun _ => rfl⟩, Or.inl rfl⟩
  | false =>
    simp only [Bool.false_eq_true, if_false, Option.bind_eq_bind,
      Option.bind_eq_some, Option.pure_def, Option.some.injEq] at h
    obtain ⟨⟨ok2, b2⟩, hB, h⟩ := h
    cases ok2 with
    | true =>
      simp only [eq_self_iff_true, if_true, Option.some.injEq,
        Prod.mk.injEq] at h
      obtain ⟨rfl, -⟩ := h
      exact ⟨⟨fun _ => Or.inr ⟨b2, hB⟩, fun _ => rfl⟩, Or.inl rfl⟩
    | false =>
      simp only [Bool.false_eq_true, if_false, Option.bind_eq_bind,
        Option.bind_eq_some, Option.pure_def, Option.some.injEq] at h
      obtain ⟨⟨ok3, b3⟩, hC, h⟩ := h
      have hno : ¬((∃ b, try_quantize_rgb_delta_blue_contract t L c0 c1 buf =
          some (true, b)) ∨
          (∃ b, try_quantize_rgb_delta t L c0 c1 buf = some (true, b))) := by
        rintro (⟨b, hb⟩ | ⟨b, hb⟩)
        · rw [hA] at hb
          simp only [Option.some.injEq, Prod.mk.injEq, Bool.false_eq_true,
            false_and] at hb
        · rw [hB] at hb
          simp only [Option.some.injEq, Prod.mk.injEq, Bool.false_eq_true,
            false_and] at hb
      cases ok3 with
      | true =>
        simp only [eq_self_iff_true, if_true, Option.some.injEq,
          Prod.mk.injEq] at h
        obtain ⟨rfl, -⟩ := h
        exact ⟨⟨fun hf => absurd hf (by decide), fun hd => absurd hd hno⟩,
          Or.inr rfl⟩
      | false =>
        simp only [Bool.false_eq_true, if_false, Option.bind_eq_bind,
          Option.bind_eq_some, Option.pure_def, Option.some.injEq] at h
        obtain ⟨b4, hD, h⟩ := h
        obtain ⟨rfl, -⟩ := h
        exact ⟨⟨fun hf => absurd hf (by decide), fun hd => absurd hd hno⟩,
          Or.inr rfl⟩

/-- Witness for C1: at the identity tables, `L = 18` and all-zero
endpoints, the dispatcher equals the spec's candidate chain (hypotheses
`L ≤ 18` and non-negativity hold at this input). -/
theorem pack_rgb_first_success_order_witness :
    pack_color_endpoints idTables ⟨0, 0, 0, 0⟩ ⟨0, 0, 0, 0⟩ ⟨0, 0, 0, 0⟩
      ⟨0, 0, 0, 0⟩ FMT_RGB [9, 9, 9, 9, 9, 9, 9, 9] 18 =
      rgb_dispatch_spec idTables 18 ⟨0, 0, 0, 0⟩ ⟨0, 0, 0, 0⟩
        [9, 9, 9, 9, 9, 9, 9, 9] :=
  (pack_rgb_first_success_order idTables 18 ⟨0, 0, 0, 0⟩ ⟨0, 0, 0, 0⟩
    ⟨0, 0, 0, 0⟩ ⟨0, 0, 0, 0⟩ [9, 9, 9, 9, 9, 9, 9, 9]
    (by decide) ⟨le_refl 0, le_refl 0, le_refl 0, le_refl 0⟩
    ⟨le_refl 0, le_refl 0, le_refl 0, le_refl 0⟩).1

theorem bitf_and_zero (w a : Nat) : bitf and w a 0 = 0 := by
  induction w generalizing a with
  | zero => rfl
  | succ w ih =>
    unfold bitf
    simp [ih]

theorem bitf_or_zero (w a : Nat) : bitf or w a 0 = a % 2 ^ w := by
  induction w generalizing a with
  | zero => simp [bitf, Nat.mod_one]
  | succ w ih =>
    unfold bitf
    rw [ih, Nat.pow_succ', Nat.mod_mul]
    rcases Nat.mod_two_eq_zero_or_one a with h2 | h2 <;> simp [h2]

theorem bitf_and_mask (k : Nat) : ∀ (w a : Nat), k ≤ w →
    bitf and w a (2 ^ k - 1) = a % 2 ^ k := by
  induction k with
  | zero =>
    intro w a _
    simpa [Nat.mod_one] using bitf_and_zero w a
  | succ k ih =>
    intro w a hk
    cases w with
    | zero => omega
    | succ w =>
      unfold bitf
      have hpos : 0 < (2:Nat) ^ k := Nat.two_pow_pos k
      have hp : (2:Nat) ^ (k+1) = 2 * 2 ^ k := by rw [Nat.pow_succ']
      have he : (2 ^ (k+1) - 1) % 2 = 1 := by omega
      have hf : (2 ^ (k+1) - 1) / 2 = 2 ^ k - 1 := by omega
      rw [he, hf, ih w (a / 2) (by omega), Nat.pow_succ', Nat.mod_mul]
      rcases Nat.mod_two_eq_zero_or_one a with h2 | h2 <;> simp [h2]

theorem bitf_and_pow2 (j : Nat) : ∀ (w a : Nat), j < w →
    bitf and w a (2 ^ j) = 2 ^ j * (a / 2 ^ j % 2) := by
  induction j with
  | zero =>
    intro w a hj
    simpa using bitf_and_mask 1 w a (by omega)
  | succ j ih =>
    intro w a hj
    cases w with
    | zero => omega
    | succ w =>
      unfold bitf
      have hp : (2:Nat) ^ (j+1) = 2 * 2 ^ j := by rw [Nat.pow_succ']
      have he : (2 ^ (j+1)) % 2 = 0 := by omega
      have hf : (2 ^ (j+1)) / 2 = 2 ^ j := by omega
      rw [he, hf, ih w (a / 2) (by omega), Nat.div_div_eq_div_mul, hp]
      simp
      ring

theorem bitf_or_pow2 (k : Nat) : ∀ (w a : Nat), k < w → a < 2 ^ k →
    bitf or w a (2 ^ k) = a + 2 ^ k := by
  induction k with
  | zero =>
    intro w a hk ha
    have ha0 : a = 0 := by
      have : (2:Nat) ^ 0 = 1 := rfl
      omega
    subst ha0
    cases w with
    | zero => omega
    | succ w =>
      unfold bitf
      simp [bitf_or_zero]
  | succ k ih =>
    intro w a hk ha
    cases w with
    | zero => omega
    | succ w =>
      unfold bitf
      have hp : (2:Nat) ^ (k+1) = 2 * 2 ^ k := by rw [Nat.pow_succ']
      have he : (2 ^ (k+1)) % 2 = 0 := by omega
      have hf : (2 ^ (k+1)) / 2 = 2 ^ k := by omega
      rw [he, hf, ih w (a / 2) (by omega) (by omega)]
      rcases Nat.mod_two_eq_zero_or_one a with h2 | h2 <;> simp [h2] <;> omega

theorem ior_small (x y : Int) (hx : 0 ≤ x ∧ x < 128) (hy : y = 0 ∨ y = 128) :
    ior x y = x + y := by
  obtain ⟨hx0, hx1⟩ := hx
  have htx : toU32 x = x.toNat := by
    unfold toU32 u32
    omega
  rcases hy with rfl | rfl
  · unfold ior
    have ht0 : toU32 0 = 0 := by unfold toU32 u32; decide
    rw [htx, ht0, bitf_or_zero]
    unfold ofU32
    rw [if_pos (by omega : x.toNat % 2 ^ 32 < 2147483648)]
    omega
  · unfold ior
    have ht128 : toU32 128 = 128 := by unfold toU32 u32; decide
    rw [htx, ht128]
    have hor : bitf or 32 x.toNat 128 = x.toNat + 128 := by
      simpa using bitf_or_pow2 7 32 x.toNat (by omega) (by omega)
    rw [hor]
    unfold ofU32
    rw [if_pos (by omega : x.toNat + 128 < 2147483648)]
    omega

/-- Modelled from the spec: the spec's described packing of the LDR delta
offset field — low seven bits of `d` in bits `[6:0]`, with bit 8 of the
base shifted into bit **6** of the field (a shift right by two). -/
def delta_pack_field_bit6 (d base : Int) : Int :=
  ior (iand d 0x7F) (ishr (iand base 0x100) 2)

/-- C5 counterexample: at `d = 0`, `base = 256` the code's packed field is
`(0x100 >> 1) = 0x80 = 128` — bit 8 of the base lands in bit **7** — while
the spec's layout (bit 8 into bit 6) would give `64`. -/
theorem delta_pack_field_counterexample :
    delta_pack_field 0 256 = 128 ∧ delta_pack_field_bit6 0 256 = 64 ∧
    ((128 : Int) ≠ 64) :=
  ⟨by decide, by decide, by decide⟩

/-- C5 (amended): for raw offsets in the range the code has already
checked (`-64 ≤ d ≤ 63`) and 9-bit bases, the packed 8-bit field is the
low seven bits of `d` in bits `[6:0]` with bit 8 of the base placed in
bit **7** (weight 128), not bit 6. -/
theorem delta_pack_field_layout (d base : Int)
    (hd : -64 ≤ d ∧ d ≤ 63) (hb : 0 ≤ base ∧ base ≤ 511) :
    delta_pack_field d base = d % 128 + 128 * (base / 256) := by
  obtain ⟨hd1, hd2⟩ := hd
  obtain ⟨hb1, hb2⟩ := hb
  have hand : iand d 0x7F = d % 128 := by
    unfold iand
    have ht127 : toU32 127 = 127 := by unfold toU32 u32; decide
    rw [ht127]
    have hmask : bitf and 32 (toU32 d) 127 = toU32 d % 128 := by
      simpa using bitf_and_mask 7 32 (toU32 d) (by omega)
    rw [hmask]
    unfold ofU32
    rw [if_pos (by omega : toU32 d % 128 < 2147483648)]
    unfold toU32 u32
    omega
  have hbase : iand base 0x100 = 256 * (base / 256) := by
    unfold iand
    have ht256 : toU32 256 = 256 := by unfold toU32 u32; decide
    rw [ht256]
    have hmask : bitf and 32 (toU32 base) 256 =
        256 * (toU32 base / 256 % 2) := by
      simpa using bitf_and_pow2 8 32 (toU32 base) (by omega)
    rw [hmask]
    unfold ofU32
    rw [if_pos (by omega : 256 * (toU32 base / 256 % 2) < 2147483648)]
    unfold toU32 u32
    omega
  have hshr : ishr (iand base 0x100) 1 = 128 * (base / 256) := by
    rw [hbase]
    have hcases : base / 256 = 0 ∨ base / 256 = 1 := by omega
    rcases hcases with h | h <;> rw [h] <;> decide
  unfold delta_pack_field
  rw [hand, hshr]
  have hcases : base / 256 = 0 ∨ base / 256 = 1 := by omega
  rcases hcases with h | h <;> rw [h]
  · simpa using ior_small (d % 128) 0 (by omega) (Or.inl rfl)
  · simpa using ior_small (d % 128) 128 (by omega) (Or.inr rfl)

/-- Witness for the amended C5: `d = 3`, `base = 300` (bit 8 set) packs to
`3 + 128 = 131`. -/
theorem delta_pack_field_layout_witness :
    delta_pack_field 3 300 = (3 : Int) % 128 + 128 * ((300 : Int) / 256) :=
  delta_pack_field_layout 3 300 (by decide) (by decide)

example : clamp255f 300 = 255 := by decide
example : flt2int_rtn (mkRat 5 2) = 3 := by decide
example : flt2int_rd (mkRat (-1) 2) = -1 := by decide
example : qLookup idTables 4 77 = some 77 := by decide
example : retain_loop idTables 4 0xC0 300 200 = some (200, 200) := by decide
example : iand 77 0x3F = 13 := by decide
example : iand (-5) 0x7F = 123 := by decide
example : ior 5 3 = 7 := by decide
example : ixor 5 3 = 6 := by decide
example : ishr (-5) 1 = -3 := by decide
example : iand 65535 (inot 0x3F) = 65472 := by decide

end Astc
